import Mathlib

/-!
Verification of the honggfuzz content-mutation engine (src/mangle.c, src/util.c).

The development shallowly embeds the mutation engine in Lean:

* the input buffer `dynfile` is a backing list of bytes (`data`, whose length is
  the allocated capacity) together with a logical length `size`;
* machine integers are `Nat`/`Int` with explicit `% 2^64` (for `size_t`/`uint64_t`
  wraparound) and `% 256` (for `uint8_t`) where the C code can overflow;
* the PRNG and the other external collaborators (entropy source, corpus accessor,
  wall clock) are an explicit oracle `Env`; each random draw consumes one oracle
  value, indexed by a `Cursor` that is threaded through every operation;
* functions that are part of this repository but whose definitions are not in
  `src/` (they live in honggfuzz's `libhfcommon/util.c`, `input.c`, `honggfuzz.h`)
  are modelled from the spec; each such definition carries a doc comment starting
  with `Modelled from the spec:`.

Fatal-abort branches (`LOG_F`) never return in the source; in this embedding they
return a junk value (noted at each site) and every theorem's hypotheses keep them
unreachable, matching the source's intent.
-/

namespace Honggfuzz

/-- Modelled from the spec: `_HF_INPUT_MAX_SIZE`, the compile-time cap on any
input size, defined in honggfuzz.h which is not under src/ (1 MiB). -/
def HF_INPUT_MAX_SIZE : Nat := 1024 * 1024

/-- Maximum reasonable block size for many types of mutations (mangle.c line 43). -/
def HF_MAX_LEN_BLOCK : Nat := 512

/-- Modulus of `uint64_t` / `size_t` arithmetic. -/
def U64 : Nat := 2 ^ 64

/-- C `size_t` subtraction `a - b` (wraps modulo `2^64`); meaningful for `a b < U64`. -/
def subU64 (a b : Nat) : Nat := (a + U64 - b) % U64

/-- Write the bytes of `src` into `l` starting at position `off`, clipped to the
length of `l` (memory outside the backing allocation is not modelled). -/
def writeBytes (l : List Nat) (off : Nat) (src : List Nat) : List Nat :=
  l.take off ++ src.take (l.length - off) ++ l.drop (off + src.length)

/-- The dynamically-sized input file: backing storage plus logical size
(`run->dynfile->data`, `run->dynfile->size`). -/
structure Dynfile where
  data : List Nat
  size : Nat

/-- One user-dictionary token (`struct strings_t`: `val`, `len`). -/
structure DictEntry where
  val : List Nat
  len : Nat

/-- One comparison-feedback token (`cmpfeedback_t.valArr[i]`: `val`, `len`). -/
structure CmpEntry where
  val : List Nat
  len : Nat

/-- The comparison-feedback map (`cmpfeedback_t`): entry count plus value array.
The list length of `valArr` plays the role of `ARRAYSIZE(cmpf->valArr)`. -/
structure CmpFeedbackMap where
  cnt : Nat
  valArr : List CmpEntry

/-- `run->global->feedback`: whether cmp feedback is enabled, and its map. -/
structure Feedback where
  cmpFeedback : Bool
  cmpFeedbackMap : CmpFeedbackMap

/-- `run->global->mutate`: the mutation configuration. -/
structure MutateCfg where
  maxInputSz : Nat
  mutationsPerRun : Nat
  dictionaryCnt : Nat
  dictionary : List DictEntry

/-- `run->global->cfg`: the only field the engine reads is `only_printable`. -/
structure Cfg where
  only_printable : Bool

/-- `run->global->timing`: the engine reads `lastCovUpdate` (milliseconds). -/
structure Timing where
  lastCovUpdate : Nat

/-- `run->global`: process-wide state read by the engine. -/
structure Global where
  mutate : MutateCfg
  feedback : Feedback
  cfg : Cfg
  timing : Timing

/-- The per-run state (`run_t`): the buffer, the global pointer and the per-run
`mutationsPerRun` counter (distinct from `global->mutate.mutationsPerRun`). -/
structure Run where
  dynfile : Dynfile
  global : Global
  mutationsPerRun : Nat

/-- The external oracle: `rnd i` is the i-th raw 64-bit entropy value produced by
the PRNG (after its time mixing), `splice i` is the i-th corpus input returned by
`input_getRandomInputAsBuf`, and `now` is the value of `util_timeNowMillis()`. -/
structure Env where
  rnd : Nat → Nat
  splice : Nat → List Nat
  now : Nat

/-- Position of the next unconsumed oracle value: `r` indexes `Env.rnd`,
`s` indexes `Env.splice`. -/
structure Cursor where
  r : Nat
  s : Nat

/-- Modelled from the spec: `util_rnd64` (not in src/util.c) returns one raw
64-bit PRNG output; here it consumes one oracle value. -/
def util_rnd64 (env : Env) (c : Cursor) : Nat × Cursor :=
  (env.rnd c.r % U64, { c with r := c.r + 1 })

/-- `util_rndGet` (src/util.c lines 42-69): draws one 64-bit entropy value and
reduces it to `[min, max]` by `(rnd % (max - min + 1)) + min`. The `min > max`
case is a fatal abort in the source; with `Nat` subtraction this definition then
returns `min`, and every use keeps `min ≤ max`. -/
def util_rndGet (env : Env) (mi ma : Nat) (c : Cursor) : Nat × Cursor :=
  let rc := util_rnd64 env c
  (rc.1 % (ma - mi + 1) + mi, rc.2)

/-- Modelled from the spec: `util_turnToPrintable` (not in src/) remaps one byte
deterministically into the printable range `[0x20, 0x7E]` by `b % 95 + 32`. -/
def util_turnToPrintable1 (b : Nat) : Nat := b % 95 + 32

/-- Modelled from the spec: `util_rndBuf` (not in src/) fills `len` bytes with
arbitrary random bytes; consumes `len` oracle values. -/
def util_rndBuf (env : Env) (len : Nat) (c : Cursor) : List Nat × Cursor :=
  ((List.range len).map (fun i => env.rnd (c.r + i) % 256), { c with r := c.r + len })

/-- Modelled from the spec: `util_rndBufPrintable` (not in src/) fills `len` bytes
with random bytes in `[0x20, 0x7E]`; consumes `len` oracle values. -/
def util_rndBufPrintable (env : Env) (len : Nat) (c : Cursor) : List Nat × Cursor :=
  ((List.range len).map (fun i => env.rnd (c.r + i) % 95 + 32), { c with r := c.r + len })

/-- Modelled from the spec: `util_rndPrintable` (not in src/) returns a single
random printable byte, uniform in `[0x20, 0x7E]`. -/
def util_rndPrintable (env : Env) (c : Cursor) : Nat × Cursor :=
  util_rndGet env 32 126 c

/-- Modelled from the spec: `input_setSize` (not in src/) sets the buffer's
logical length (`buffer.set_size(n)`); capacity is preconditioned on init. -/
def input_setSize (run : Run) (sz : Nat) : Run :=
  { run with dynfile := { run.dynfile with size := sz } }

/-- Modelled from the spec: `input_getRandomInputAsBuf` (not in src/) fetches a
random prior corpus input as a byte buffer, or an empty one (`sz == 0`) when no
corpus input is available; here it consumes one `splice` oracle value. -/
def input_getRandomInputAsBuf (env : Env) (c : Cursor) : List Nat × Cursor :=
  (env.splice c.s, { c with s := c.s + 1 })

/-- A source operand of `memmove`-based primitives: either external bytes or a
pointer into the dynfile's own backing storage (`&run->dynfile->data[off]`). -/
inductive Src where
  | ext (bytes : List Nat)
  | inBuf (off : Nat)

/-- Dereference a `Src` against the current buffer contents. -/
def readSrc (run : Run) : Src → List Nat
  | Src.ext bytes => bytes
  | Src.inBuf off => run.dynfile.data.drop off

/-- `mangle_LenLeft` (mangle.c lines 45-50): bytes to the right of `off`,
excluding `off` itself. `off ≥ size` is a fatal abort in the source (`LOG_F`);
this embedding returns 0 there and no caller reaches it. -/
def mangle_LenLeft (run : Run) (off : Nat) : Nat :=
  if off ≥ run.dynfile.size then 0 else run.dynfile.size - off - 1

/-- `mangle_getLen` (mangle.c lines 53-80): a random value in `[1, max]` with an
x^2-biased distribution, `ret = (rnd*rnd) / max^3 + 1` for `rnd` uniform on
`[1, max^2 - 1]`, computed in `uint64_t` arithmetic. The `max > _HF_INPUT_MAX_SIZE`
and `max == 0` branches are fatal aborts in the source (`LOG_F`): this embedding
returns 0 there and every theorem keeps them unreachable. The final
`ret < 1` / `ret > max` fatal checks are dead code (see `mangle_getLen_bounds`). -/
def mangle_getLen (env : Env) (max : Nat) (c : Cursor) : Nat × Cursor :=
  if max > HF_INPUT_MAX_SIZE then (0, c)
  else if max = 0 then (0, c)
  else if max = 1 then (1, c)
  else
    let max2 := max * max % U64
    let max3 := max * max * max % U64
    let rc := util_rndGet env 1 (max2 - 1) c
    (rc.1 * rc.1 % U64 / max3 + 1, rc.2)

/-- `mangle_getOffSet` (mangle.c lines 83-85): `mangle_getLen(size) - 1`,
an offset in `[0, size)` biased toward the buffer head. -/
def mangle_getOffSet (env : Env) (run : Run) (c : Cursor) : Nat × Cursor :=
  let rc := mangle_getLen env run.dynfile.size c
  (rc.1 - 1, rc.2)

/-- `mangle_Move` (mangle.c lines 87-102): in-buffer copy of `len` bytes from
`off_from` to `off_to`; no-op when either offset is at or past `size`; `len` is
clamped to `size - off_from` and `size - off_to`; `memmove` semantics (read the
whole source slice, then write it). -/
def mangle_Move (run : Run) (off_from off_to len : Nat) : Run :=
  if off_from ≥ run.dynfile.size then run
  else if off_to ≥ run.dynfile.size then run
  else
    let len1 := min len (run.dynfile.size - off_from)
    let len2 := min len1 (run.dynfile.size - off_to)
    { run with dynfile := { run.dynfile with
        data := writeBytes run.dynfile.data off_to
          ((run.dynfile.data.drop off_from).take len2) } }

/-- `mangle_Overwrite` (mangle.c lines 104-118): copy `len` bytes from `src` to
`data + off`, clamping `len` to `size - off` — a `size_t` subtraction that wraps
when `off > size` — then remap the written bytes to printable when requested. -/
def mangle_Overwrite (run : Run) (off : Nat) (src : Src) (len : Nat)
    (printable : Bool) : Run :=
  if len = 0 then run
  else
    let maxToCopy := subU64 run.dynfile.size off
    let len' := if len > maxToCopy then maxToCopy else len
    let written := (readSrc run src).take len'
    let written := if printable then written.map util_turnToPrintable1 else written
    { run with dynfile := { run.dynfile with
        data := writeBytes run.dynfile.data off written } }

/-- `mangle_Inflate` (mangle.c lines 120-135): grow `size` by at most
`maxInputSz - size`, shift the bytes at `[off, old_size)` right by the growth,
fill the gap with spaces when printable, and return the actual growth. -/
def mangle_Inflate (run : Run) (off len : Nat) (printable : Bool) : Run × Nat :=
  if run.dynfile.size ≥ run.global.mutate.maxInputSz then (run, 0)
  else
    let len := if len > run.global.mutate.maxInputSz - run.dynfile.size
               then run.global.mutate.maxInputSz - run.dynfile.size else len
    let run := input_setSize run (run.dynfile.size + len)
    let run := mangle_Move run off (off + len) run.dynfile.size
    let run := if printable then
        { run with dynfile := { run.dynfile with
            data := writeBytes run.dynfile.data off (List.replicate len 32) } }
      else run
    (run, len)

/-- `mangle_Insert` (mangle.c lines 137-141): inflate at `off`, then overwrite
the opened gap from `src` (the source is dereferenced after the inflate, exactly
as the C pointer is). -/
def mangle_Insert (run : Run) (off : Nat) (src : Src) (len : Nat)
    (printable : Bool) : Run :=
  let rl := mangle_Inflate run off len printable
  mangle_Overwrite rl.1 off src rl.2 printable

/-- Reinterpret a raw `uint64_t` value as the C `int64_t` it converts to. -/
def int64OfU64 (r : Nat) : Int :=
  if r < 2 ^ 63 then (r : Int) else (r : Int) - (U64 : Int)

/-- Reduce a C `int` expression to the `uint8_t` it is stored as. -/
def byteOfInt (i : Int) : Nat := (i.emod 256).toNat

/-- Read `n` bytes at `off` as a little-endian unsigned value (the `memcpy` into
a host-endian `intN_t` on a little-endian machine). -/
def leGet (data : List Nat) (off : Nat) : Nat → Nat
  | 0 => 0
  | n + 1 => data.getD off 0 % 256 + 256 * leGet data (off + 1) n

/-- The `n` little-endian bytes of a value (low byte first). -/
def leBytes (v : Nat) : Nat → List Nat
  | 0 => []
  | n + 1 => v % 256 :: leBytes (v / 256) n

/-- Byte-swap an `n`-byte value (`__builtin_bswap16/32/64`). -/
def bswap (v n : Nat) : Nat :=
  (leBytes v n).foldl (fun acc b => acc * 256 + b) 0

/-- Wrap an `int` sum back into an `n`-byte machine integer (the bytes stored by
`intN_t` addition are the sum modulo `2^(8n)` regardless of signedness). -/
def wrapBytes (i : Int) (n : Nat) : Nat := (i.emod ((2 : Int) ^ (8 * n))).toNat

/-- The decimal ASCII bytes of an `int64_t` value (a `-` sign then the digits). -/
def decBytes (v : Int) : List Nat :=
  if v < 0 then 45 :: (Nat.toDigits 10 v.natAbs).map Char.toNat
  else (Nat.toDigits 10 v.toNat).map Char.toNat

/-- The 20-byte buffer produced by `snprintf(buf, sizeof(buf), "%-19" PRId64, v)`
for `v = (int64_t)r`: the decimal string left-justified with spaces to width 19,
truncated to 19 characters, then the terminating NUL. -/
def asciiNumBuf (r : Nat) : List Nat :=
  let s := decBytes (int64OfU64 r)
  (s ++ List.replicate (19 - s.length) 32).take 19 ++ [0]

/-- Type of a mutation operator: `(run, printable)`, threaded through the oracle. -/
abbrev Mangler := Env → Run → Bool → Cursor → Run × Cursor

/-- `mangle_MemCopyOverwrite` (mangle.c lines 143-149). -/
def mangle_MemCopyOverwrite : Mangler := fun env run printable c =>
  let oc := mangle_getOffSet env run c
  let off_from := oc.1
  let oc2 := mangle_getOffSet env run oc.2
  let off_to := oc2.1
  let lc := mangle_getLen env (min HF_MAX_LEN_BLOCK (run.dynfile.size - off_from)) oc2.2
  (mangle_Overwrite run off_to (Src.inBuf off_from) lc.1 printable, lc.2)

/-- `mangle_MemCopyInsert` (mangle.c lines 151-157). -/
def mangle_MemCopyInsert : Mangler := fun env run printable c =>
  let oc := mangle_getOffSet env run c
  let off_to := oc.1
  let oc2 := mangle_getOffSet env run oc.2
  let off_from := oc2.1
  let lc := mangle_getLen env (min HF_MAX_LEN_BLOCK (run.dynfile.size - off_from)) oc2.2
  (mangle_Insert run off_to (Src.inBuf off_from) lc.1 printable, lc.2)

/-- The 1-2 random bytes both `Bytes` operators write: a `uint16_t` filled by
`util_rndBufPrintable` when printable, else assigned from `util_rnd64()`
(its low 16 bits, in little-endian byte order). -/
def bytesBuf (env : Env) (printable : Bool) (c : Cursor) : List Nat × Cursor :=
  if printable then util_rndBufPrintable env 2 c
  else
    let rc := util_rnd64 env c
    ([rc.1 % 256, rc.1 / 256 % 256], rc.2)

/-- `mangle_BytesOverwrite` (mangle.c lines 159-172): offset first, then the
random 2-byte buffer, then `toCopy` uniform in `[1, 2]`. -/
def mangle_BytesOverwrite : Mangler := fun env run printable c =>
  let oc := mangle_getOffSet env run c
  let bc := bytesBuf env printable oc.2
  let tc := util_rndGet env 1 2 bc.2
  (mangle_Overwrite run oc.1 (Src.ext bc.1) tc.1 printable, tc.2)

/-- `mangle_BytesInsert` (mangle.c lines 174-186): the random 2-byte buffer
first, then the offset, then `toCopy` uniform in `[1, 2]`. -/
def mangle_BytesInsert : Mangler := fun env run printable c =>
  let bc := bytesBuf env printable c
  let oc := mangle_getOffSet env run bc.2
  let tc := util_rndGet env 1 2 oc.2
  (mangle_Insert run oc.1 (Src.ext bc.1) tc.1 printable, tc.2)

/-- `mangle_ByteRepeatOverwrite` (mangle.c lines 188-201): repeat `data[off]`
into the following `len` bytes; fall through to `BytesOverwrite` when there is
no space after `off`. -/
def mangle_ByteRepeatOverwrite : Mangler := fun env run printable c =>
  let oc := mangle_getOffSet env run c
  let off := oc.1
  let destOff := off + 1
  let maxSz := run.dynfile.size - destOff
  if maxSz = 0 then mangle_BytesOverwrite env run printable oc.2
  else
    let lc := mangle_getLen env (min HF_MAX_LEN_BLOCK maxSz) oc.2
    ({ run with dynfile := { run.dynfile with
        data := writeBytes run.dynfile.data destOff
          (List.replicate lc.1 (run.dynfile.data.getD off 0)) } }, lc.2)

/-- `mangle_ByteRepeatInsert` (mangle.c lines 203-217): like the overwrite
variant but the repeated block is opened with `mangle_Inflate` first; the
repeated byte `data[off]` is read after the inflate, as in the source. -/
def mangle_ByteRepeatInsert : Mangler := fun env run printable c =>
  let oc := mangle_getOffSet env run c
  let off := oc.1
  let destOff := off + 1
  let maxSz := run.dynfile.size - destOff
  if maxSz = 0 then mangle_BytesInsert env run printable oc.2
  else
    let lc := mangle_getLen env (min HF_MAX_LEN_BLOCK maxSz) oc.2
    let rl := mangle_Inflate run destOff lc.1 printable
    ({ rl.1 with dynfile := { rl.1.dynfile with
        data := writeBytes rl.1.dynfile.data destOff
          (List.replicate rl.2 (rl.1.dynfile.data.getD off 0)) } }, lc.2)

/-- `mangle_Bit` (mangle.c lines 219-225): flip one random bit of `data[off]`,
then remap the byte to printable when requested. -/
def mangle_Bit : Mangler := fun env run printable c =>
  let oc := mangle_getOffSet env run c
  let kc := util_rndGet env 0 7 oc.2
  let b := Nat.xor (run.dynfile.data.getD oc.1 0) (2 ^ kc.1)
  let b := if printable then util_turnToPrintable1 b else b
  ({ run with dynfile := { run.dynfile with
      data := writeBytes run.dynfile.data oc.1 [b] } }, kc.2)

/-- The static magic-values table `mangleMagicVals` (mangle.c lines 227-462):
221 entries of an 8-byte value and the number of leading bytes used. -/
def mangleMagicVals : List (List Nat × Nat) := [
  ([0x00, 0x00, 0x00, 0x00, 0x00, 0x00, 0x00, 0x00], 1),
  ([0x01, 0x00, 0x00, 0x00, 0x00, 0x00, 0x00, 0x00], 1),
  ([0x02, 0x00, 0x00, 0x00, 0x00, 0x00, 0x00, 0x00], 1),
  ([0x03, 0x00, 0x00, 0x00, 0x00, 0x00, 0x00, 0x00], 1),
  ([0x04, 0x00, 0x00, 0x00, 0x00, 0x00, 0x00, 0x00], 1),
  ([0x05, 0x00, 0x00, 0x00, 0x00, 0x00, 0x00, 0x00], 1),
  ([0x06, 0x00, 0x00, 0x00, 0x00, 0x00, 0x00, 0x00], 1),
  ([0x07, 0x00, 0x00, 0x00, 0x00, 0x00, 0x00, 0x00], 1),
  ([0x08, 0x00, 0x00, 0x00, 0x00, 0x00, 0x00, 0x00], 1),
  ([0x09, 0x00, 0x00, 0x00, 0x00, 0x00, 0x00, 0x00], 1),
  ([0x0A, 0x00, 0x00, 0x00, 0x00, 0x00, 0x00, 0x00], 1),
  ([0x0B, 0x00, 0x00, 0x00, 0x00, 0x00, 0x00, 0x00], 1),
  ([0x0C, 0x00, 0x00, 0x00, 0x00, 0x00, 0x00, 0x00], 1),
  ([0x0D, 0x00, 0x00, 0x00, 0x00, 0x00, 0x00, 0x00], 1),
  ([0x0E, 0x00, 0x00, 0x00, 0x00, 0x00, 0x00, 0x00], 1),
  ([0x0F, 0x00, 0x00, 0x00, 0x00, 0x00, 0x00, 0x00], 1),
  ([0x10, 0x00, 0x00, 0x00, 0x00, 0x00, 0x00, 0x00], 1),
  ([0x20, 0x00, 0x00, 0x00, 0x00, 0x00, 0x00, 0x00], 1),
  ([0x40, 0x00, 0x00, 0x00, 0x00, 0x00, 0x00, 0x00], 1),
  ([0x7E, 0x00, 0x00, 0x00, 0x00, 0x00, 0x00, 0x00], 1),
  ([0x7F, 0x00, 0x00, 0x00, 0x00, 0x00, 0x00, 0x00], 1),
  ([0x80, 0x00, 0x00, 0x00, 0x00, 0x00, 0x00, 0x00], 1),
  ([0x81, 0x00, 0x00, 0x00, 0x00, 0x00, 0x00, 0x00], 1),
  ([0xC0, 0x00, 0x00, 0x00, 0x00, 0x00, 0x00, 0x00], 1),
  ([0xFE, 0x00, 0x00, 0x00, 0x00, 0x00, 0x00, 0x00], 1),
  ([0xFF, 0x00, 0x00, 0x00, 0x00, 0x00, 0x00, 0x00], 1),
  ([0x00, 0x00, 0x00, 0x00, 0x00, 0x00, 0x00, 0x00], 2),
  ([0x01, 0x01, 0x00, 0x00, 0x00, 0x00, 0x00, 0x00], 2),
  ([0x80, 0x80, 0x00, 0x00, 0x00, 0x00, 0x00, 0x00], 2),
  ([0xFF, 0xFF, 0x00, 0x00, 0x00, 0x00, 0x00, 0x00], 2),
  ([0x00, 0x01, 0x00, 0x00, 0x00, 0x00, 0x00, 0x00], 2),
  ([0x00, 0x02, 0x00, 0x00, 0x00, 0x00, 0x00, 0x00], 2),
  ([0x00, 0x03, 0x00, 0x00, 0x00, 0x00, 0x00, 0x00], 2),
  ([0x00, 0x04, 0x00, 0x00, 0x00, 0x00, 0x00, 0x00], 2),
  ([0x00, 0x05, 0x00, 0x00, 0x00, 0x00, 0x00, 0x00], 2),
  ([0x00, 0x06, 0x00, 0x00, 0x00, 0x00, 0x00, 0x00], 2),
  ([0x00, 0x07, 0x00, 0x00, 0x00, 0x00, 0x00, 0x00], 2),
  ([0x00, 0x08, 0x00, 0x00, 0x00, 0x00, 0x00, 0x00], 2),
  ([0x00, 0x09, 0x00, 0x00, 0x00, 0x00, 0x00, 0x00], 2),
  ([0x00, 0x0A, 0x00, 0x00, 0x00, 0x00, 0x00, 0x00], 2),
  ([0x00, 0x0B, 0x00, 0x00, 0x00, 0x00, 0x00, 0x00], 2),
  ([0x00, 0x0C, 0x00, 0x00, 0x00, 0x00, 0x00, 0x00], 2),
  ([0x00, 0x0D, 0x00, 0x00, 0x00, 0x00, 0x00, 0x00], 2),
  ([0x00, 0x0E, 0x00, 0x00, 0x00, 0x00, 0x00, 0x00], 2),
  ([0x00, 0x0F, 0x00, 0x00, 0x00, 0x00, 0x00, 0x00], 2),
  ([0x00, 0x10, 0x00, 0x00, 0x00, 0x00, 0x00, 0x00], 2),
  ([0x00, 0x20, 0x00, 0x00, 0x00, 0x00, 0x00, 0x00], 2),
  ([0x00, 0x40, 0x00, 0x00, 0x00, 0x00, 0x00, 0x00], 2),
  ([0x00, 0x7E, 0x00, 0x00, 0x00, 0x00, 0x00, 0x00], 2),
  ([0x00, 0x7F, 0x00, 0x00, 0x00, 0x00, 0x00, 0x00], 2),
  ([0x00, 0x80, 0x00, 0x00, 0x00, 0x00, 0x00, 0x00], 2),
  ([0x00, 0x81, 0x00, 0x00, 0x00, 0x00, 0x00, 0x00], 2),
  ([0x00, 0xC0, 0x00, 0x00, 0x00, 0x00, 0x00, 0x00], 2),
  ([0x00, 0xFE, 0x00, 0x00, 0x00, 0x00, 0x00, 0x00], 2),
  ([0x00, 0xFF, 0x00, 0x00, 0x00, 0x00, 0x00, 0x00], 2),
  ([0x7E, 0xFF, 0x00, 0x00, 0x00, 0x00, 0x00, 0x00], 2),
  ([0x7F, 0xFF, 0x00, 0x00, 0x00, 0x00, 0x00, 0x00], 2),
  ([0x80, 0x00, 0x00, 0x00, 0x00, 0x00, 0x00, 0x00], 2),
  ([0x80, 0x01, 0x00, 0x00, 0x00, 0x00, 0x00, 0x00], 2),
  ([0xFF, 0xFE, 0x00, 0x00, 0x00, 0x00, 0x00, 0x00], 2),
  ([0x00, 0x00, 0x00, 0x00, 0x00, 0x00, 0x00, 0x00], 2),
  ([0x01, 0x00, 0x00, 0x00, 0x00, 0x00, 0x00, 0x00], 2),
  ([0x02, 0x00, 0x00, 0x00, 0x00, 0x00, 0x00, 0x00], 2),
  ([0x03, 0x00, 0x00, 0x00, 0x00, 0x00, 0x00, 0x00], 2),
  ([0x04, 0x00, 0x00, 0x00, 0x00, 0x00, 0x00, 0x00], 2),
  ([0x05, 0x00, 0x00, 0x00, 0x00, 0x00, 0x00, 0x00], 2),
  ([0x06, 0x00, 0x00, 0x00, 0x00, 0x00, 0x00, 0x00], 2),
  ([0x07, 0x00, 0x00, 0x00, 0x00, 0x00, 0x00, 0x00], 2),
  ([0x08, 0x00, 0x00, 0x00, 0x00, 0x00, 0x00, 0x00], 2),
  ([0x09, 0x00, 0x00, 0x00, 0x00, 0x00, 0x00, 0x00], 2),
  ([0x0A, 0x00, 0x00, 0x00, 0x00, 0x00, 0x00, 0x00], 2),
  ([0x0B, 0x00, 0x00, 0x00, 0x00, 0x00, 0x00, 0x00], 2),
  ([0x0C, 0x00, 0x00, 0x00, 0x00, 0x00, 0x00, 0x00], 2),
  ([0x0D, 0x00, 0x00, 0x00, 0x00, 0x00, 0x00, 0x00], 2),
  ([0x0E, 0x00, 0x00, 0x00, 0x00, 0x00, 0x00, 0x00], 2),
  ([0x0F, 0x00, 0x00, 0x00, 0x00, 0x00, 0x00, 0x00], 2),
  ([0x10, 0x00, 0x00, 0x00, 0x00, 0x00, 0x00, 0x00], 2),
  ([0x20, 0x00, 0x00, 0x00, 0x00, 0x00, 0x00, 0x00], 2),
  ([0x40, 0x00, 0x00, 0x00, 0x00, 0x00, 0x00, 0x00], 2),
  ([0x7E, 0x00, 0x00, 0x00, 0x00, 0x00, 0x00, 0x00], 2),
  ([0x7F, 0x00, 0x00, 0x00, 0x00, 0x00, 0x00, 0x00], 2),
  ([0x80, 0x00, 0x00, 0x00, 0x00, 0x00, 0x00, 0x00], 2),
  ([0x81, 0x00, 0x00, 0x00, 0x00, 0x00, 0x00, 0x00], 2),
  ([0xC0, 0x00, 0x00, 0x00, 0x00, 0x00, 0x00, 0x00], 2),
  ([0xFE, 0x00, 0x00, 0x00, 0x00, 0x00, 0x00, 0x00], 2),
  ([0xFF, 0x00, 0x00, 0x00, 0x00, 0x00, 0x00, 0x00], 2),
  ([0xFF, 0x7E, 0x00, 0x00, 0x00, 0x00, 0x00, 0x00], 2),
  ([0xFF, 0x7F, 0x00, 0x00, 0x00, 0x00, 0x00, 0x00], 2),
  ([0x00, 0x80, 0x00, 0x00, 0x00, 0x00, 0x00, 0x00], 2),
  ([0x01, 0x80, 0x00, 0x00, 0x00, 0x00, 0x00, 0x00], 2),
  ([0xFE, 0xFF, 0x00, 0x00, 0x00, 0x00, 0x00, 0x00], 2),
  ([0x00, 0x00, 0x00, 0x00, 0x00, 0x00, 0x00, 0x00], 4),
  ([0x01, 0x01, 0x01, 0x01, 0x00, 0x00, 0x00, 0x00], 4),
  ([0x80, 0x80, 0x80, 0x80, 0x00, 0x00, 0x00, 0x00], 4),
  ([0xFF, 0xFF, 0xFF, 0xFF, 0x00, 0x00, 0x00, 0x00], 4),
  ([0x00, 0x00, 0x00, 0x01, 0x00, 0x00, 0x00, 0x00], 4),
  ([0x00, 0x00, 0x00, 0x02, 0x00, 0x00, 0x00, 0x00], 4),
  ([0x00, 0x00, 0x00, 0x03, 0x00, 0x00, 0x00, 0x00], 4),
  ([0x00, 0x00, 0x00, 0x04, 0x00, 0x00, 0x00, 0x00], 4),
  ([0x00, 0x00, 0x00, 0x05, 0x00, 0x00, 0x00, 0x00], 4),
  ([0x00, 0x00, 0x00, 0x06, 0x00, 0x00, 0x00, 0x00], 4),
  ([0x00, 0x00, 0x00, 0x07, 0x00, 0x00, 0x00, 0x00], 4),
  ([0x00, 0x00, 0x00, 0x08, 0x00, 0x00, 0x00, 0x00], 4),
  ([0x00, 0x00, 0x00, 0x09, 0x00, 0x00, 0x00, 0x00], 4),
  ([0x00, 0x00, 0x00, 0x0A, 0x00, 0x00, 0x00, 0x00], 4),
  ([0x00, 0x00, 0x00, 0x0B, 0x00, 0x00, 0x00, 0x00], 4),
  ([0x00, 0x00, 0x00, 0x0C, 0x00, 0x00, 0x00, 0x00], 4),
  ([0x00, 0x00, 0x00, 0x0D, 0x00, 0x00, 0x00, 0x00], 4),
  ([0x00, 0x00, 0x00, 0x0E, 0x00, 0x00, 0x00, 0x00], 4),
  ([0x00, 0x00, 0x00, 0x0F, 0x00, 0x00, 0x00, 0x00], 4),
  ([0x00, 0x00, 0x00, 0x10, 0x00, 0x00, 0x00, 0x00], 4),
  ([0x00, 0x00, 0x00, 0x20, 0x00, 0x00, 0x00, 0x00], 4),
  ([0x00, 0x00, 0x00, 0x40, 0x00, 0x00, 0x00, 0x00], 4),
  ([0x00, 0x00, 0x00, 0x7E, 0x00, 0x00, 0x00, 0x00], 4),
  ([0x00, 0x00, 0x00, 0x7F, 0x00, 0x00, 0x00, 0x00], 4),
  ([0x00, 0x00, 0x00, 0x80, 0x00, 0x00, 0x00, 0x00], 4),
  ([0x00, 0x00, 0x00, 0x81, 0x00, 0x00, 0x00, 0x00], 4),
  ([0x00, 0x00, 0x00, 0xC0, 0x00, 0x00, 0x00, 0x00], 4),
  ([0x00, 0x00, 0x00, 0xFE, 0x00, 0x00, 0x00, 0x00], 4),
  ([0x00, 0x00, 0x00, 0xFF, 0x00, 0x00, 0x00, 0x00], 4),
  ([0x7E, 0xFF, 0xFF, 0xFF, 0x00, 0x00, 0x00, 0x00], 4),
  ([0x7F, 0xFF, 0xFF, 0xFF, 0x00, 0x00, 0x00, 0x00], 4),
  ([0x80, 0x00, 0x00, 0x00, 0x00, 0x00, 0x00, 0x00], 4),
  ([0x80, 0x00, 0x00, 0x01, 0x00, 0x00, 0x00, 0x00], 4),
  ([0xFF, 0xFF, 0xFF, 0xFE, 0x00, 0x00, 0x00, 0x00], 4),
  ([0x00, 0x00, 0x00, 0x00, 0x00, 0x00, 0x00, 0x00], 4),
  ([0x01, 0x00, 0x00, 0x00, 0x00, 0x00, 0x00, 0x00], 4),
  ([0x02, 0x00, 0x00, 0x00, 0x00, 0x00, 0x00, 0x00], 4),
  ([0x03, 0x00, 0x00, 0x00, 0x00, 0x00, 0x00, 0x00], 4),
  ([0x04, 0x00, 0x00, 0x00, 0x00, 0x00, 0x00, 0x00], 4),
  ([0x05, 0x00, 0x00, 0x00, 0x00, 0x00, 0x00, 0x00], 4),
  ([0x06, 0x00, 0x00, 0x00, 0x00, 0x00, 0x00, 0x00], 4),
  ([0x07, 0x00, 0x00, 0x00, 0x00, 0x00, 0x00, 0x00], 4),
  ([0x08, 0x00, 0x00, 0x00, 0x00, 0x00, 0x00, 0x00], 4),
  ([0x09, 0x00, 0x00, 0x00, 0x00, 0x00, 0x00, 0x00], 4),
  ([0x0A, 0x00, 0x00, 0x00, 0x00, 0x00, 0x00, 0x00], 4),
  ([0x0B, 0x00, 0x00, 0x00, 0x00, 0x00, 0x00, 0x00], 4),
  ([0x0C, 0x00, 0x00, 0x00, 0x00, 0x00, 0x00, 0x00], 4),
  ([0x0D, 0x00, 0x00, 0x00, 0x00, 0x00, 0x00, 0x00], 4),
  ([0x0E, 0x00, 0x00, 0x00, 0x00, 0x00, 0x00, 0x00], 4),
  ([0x0F, 0x00, 0x00, 0x00, 0x00, 0x00, 0x00, 0x00], 4),
  ([0x10, 0x00, 0x00, 0x00, 0x00, 0x00, 0x00, 0x00], 4),
  ([0x20, 0x00, 0x00, 0x00, 0x00, 0x00, 0x00, 0x00], 4),
  ([0x40, 0x00, 0x00, 0x00, 0x00, 0x00, 0x00, 0x00], 4),
  ([0x7E, 0x00, 0x00, 0x00, 0x00, 0x00, 0x00, 0x00], 4),
  ([0x7F, 0x00, 0x00, 0x00, 0x00, 0x00, 0x00, 0x00], 4),
  ([0x80, 0x00, 0x00, 0x00, 0x00, 0x00, 0x00, 0x00], 4),
  ([0x81, 0x00, 0x00, 0x00, 0x00, 0x00, 0x00, 0x00], 4),
  ([0xC0, 0x00, 0x00, 0x00, 0x00, 0x00, 0x00, 0x00], 4),
  ([0xFE, 0x00, 0x00, 0x00, 0x00, 0x00, 0x00, 0x00], 4),
  ([0xFF, 0x00, 0x00, 0x00, 0x00, 0x00, 0x00, 0x00], 4),
  ([0xFF, 0xFF, 0xFF, 0x7E, 0x00, 0x00, 0x00, 0x00], 4),
  ([0xFF, 0xFF, 0xFF, 0x7F, 0x00, 0x00, 0x00, 0x00], 4),
  ([0x00, 0x00, 0x00, 0x80, 0x00, 0x00, 0x00, 0x00], 4),
  ([0x01, 0x00, 0x00, 0x80, 0x00, 0x00, 0x00, 0x00], 4),
  ([0xFE, 0xFF, 0xFF, 0xFF, 0x00, 0x00, 0x00, 0x00], 4),
  ([0x00, 0x00, 0x00, 0x00, 0x00, 0x00, 0x00, 0x00], 8),
  ([0x01, 0x01, 0x01, 0x01, 0x01, 0x01, 0x01, 0x01], 8),
  ([0x80, 0x80, 0x80, 0x80, 0x80, 0x80, 0x80, 0x80], 8),
  ([0xFF, 0xFF, 0xFF, 0xFF, 0xFF, 0xFF, 0xFF, 0xFF], 8),
  ([0x00, 0x00, 0x00, 0x00, 0x00, 0x00, 0x00, 0x01], 8),
  ([0x00, 0x00, 0x00, 0x00, 0x00, 0x00, 0x00, 0x02], 8),
  ([0x00, 0x00, 0x00, 0x00, 0x00, 0x00, 0x00, 0x03], 8),
  ([0x00, 0x00, 0x00, 0x00, 0x00, 0x00, 0x00, 0x04], 8),
  ([0x00, 0x00, 0x00, 0x00, 0x00, 0x00, 0x00, 0x05], 8),
  ([0x00, 0x00, 0x00, 0x00, 0x00, 0x00, 0x00, 0x06], 8),
  ([0x00, 0x00, 0x00, 0x00, 0x00, 0x00, 0x00, 0x07], 8),
  ([0x00, 0x00, 0x00, 0x00, 0x00, 0x00, 0x00, 0x08], 8),
  ([0x00, 0x00, 0x00, 0x00, 0x00, 0x00, 0x00, 0x09], 8),
  ([0x00, 0x00, 0x00, 0x00, 0x00, 0x00, 0x00, 0x0A], 8),
  ([0x00, 0x00, 0x00, 0x00, 0x00, 0x00, 0x00, 0x0B], 8),
  ([0x00, 0x00, 0x00, 0x00, 0x00, 0x00, 0x00, 0x0C], 8),
  ([0x00, 0x00, 0x00, 0x00, 0x00, 0x00, 0x00, 0x0D], 8),
  ([0x00, 0x00, 0x00, 0x00, 0x00, 0x00, 0x00, 0x0E], 8),
  ([0x00, 0x00, 0x00, 0x00, 0x00, 0x00, 0x00, 0x0F], 8),
  ([0x00, 0x00, 0x00, 0x00, 0x00, 0x00, 0x00, 0x10], 8),
  ([0x00, 0x00, 0x00, 0x00, 0x00, 0x00, 0x00, 0x20], 8),
  ([0x00, 0x00, 0x00, 0x00, 0x00, 0x00, 0x00, 0x40], 8),
  ([0x00, 0x00, 0x00, 0x00, 0x00, 0x00, 0x00, 0x7E], 8),
  ([0x00, 0x00, 0x00, 0x00, 0x00, 0x00, 0x00, 0x7F], 8),
  ([0x00, 0x00, 0x00, 0x00, 0x00, 0x00, 0x00, 0x80], 8),
  ([0x00, 0x00, 0x00, 0x00, 0x00, 0x00, 0x00, 0x81], 8),
  ([0x00, 0x00, 0x00, 0x00, 0x00, 0x00, 0x00, 0xC0], 8),
  ([0x00, 0x00, 0x00, 0x00, 0x00, 0x00, 0x00, 0xFE], 8),
  ([0x00, 0x00, 0x00, 0x00, 0x00, 0x00, 0x00, 0xFF], 8),
  ([0x7E, 0xFF, 0xFF, 0xFF, 0xFF, 0xFF, 0xFF, 0xFF], 8),
  ([0x7F, 0xFF, 0xFF, 0xFF, 0xFF, 0xFF, 0xFF, 0xFF], 8),
  ([0x80, 0x00, 0x00, 0x00, 0x00, 0x00, 0x00, 0x00], 8),
  ([0x80, 0x00, 0x00, 0x00, 0x00, 0x00, 0x00, 0x01], 8),
  ([0xFF, 0xFF, 0xFF, 0xFF, 0xFF, 0xFF, 0xFF, 0xFE], 8),
  ([0x00, 0x00, 0x00, 0x00, 0x00, 0x00, 0x00, 0x00], 8),
  ([0x01, 0x00, 0x00, 0x00, 0x00, 0x00, 0x00, 0x00], 8),
  ([0x02, 0x00, 0x00, 0x00, 0x00, 0x00, 0x00, 0x00], 8),
  ([0x03, 0x00, 0x00, 0x00, 0x00, 0x00, 0x00, 0x00], 8),
  ([0x04, 0x00, 0x00, 0x00, 0x00, 0x00, 0x00, 0x00], 8),
  ([0x05, 0x00, 0x00, 0x00, 0x00, 0x00, 0x00, 0x00], 8),
  ([0x06, 0x00, 0x00, 0x00, 0x00, 0x00, 0x00, 0x00], 8),
  ([0x07, 0x00, 0x00, 0x00, 0x00, 0x00, 0x00, 0x00], 8),
  ([0x08, 0x00, 0x00, 0x00, 0x00, 0x00, 0x00, 0x00], 8),
  ([0x09, 0x00, 0x00, 0x00, 0x00, 0x00, 0x00, 0x00], 8),
  ([0x0A, 0x00, 0x00, 0x00, 0x00, 0x00, 0x00, 0x00], 8),
  ([0x0B, 0x00, 0x00, 0x00, 0x00, 0x00, 0x00, 0x00], 8),
  ([0x0C, 0x00, 0x00, 0x00, 0x00, 0x00, 0x00, 0x00], 8),
  ([0x0D, 0x00, 0x00, 0x00, 0x00, 0x00, 0x00, 0x00], 8),
  ([0x0E, 0x00, 0x00, 0x00, 0x00, 0x00, 0x00, 0x00], 8),
  ([0x0F, 0x00, 0x00, 0x00, 0x00, 0x00, 0x00, 0x00], 8),
  ([0x10, 0x00, 0x00, 0x00, 0x00, 0x00, 0x00, 0x00], 8),
  ([0x20, 0x00, 0x00, 0x00, 0x00, 0x00, 0x00, 0x00], 8),
  ([0x40, 0x00, 0x00, 0x00, 0x00, 0x00, 0x00, 0x00], 8),
  ([0x7E, 0x00, 0x00, 0x00, 0x00, 0x00, 0x00, 0x00], 8),
  ([0x7F, 0x00, 0x00, 0x00, 0x00, 0x00, 0x00, 0x00], 8),
  ([0x80, 0x00, 0x00, 0x00, 0x00, 0x00, 0x00, 0x00], 8),
  ([0x81, 0x00, 0x00, 0x00, 0x00, 0x00, 0x00, 0x00], 8),
  ([0xC0, 0x00, 0x00, 0x00, 0x00, 0x00, 0x00, 0x00], 8),
  ([0xFE, 0x00, 0x00, 0x00, 0x00, 0x00, 0x00, 0x00], 8),
  ([0xFF, 0x00, 0x00, 0x00, 0x00, 0x00, 0x00, 0x00], 8),
  ([0xFF, 0xFF, 0xFF, 0xFF, 0xFF, 0xFF, 0xFF, 0x7E], 8),
  ([0xFF, 0xFF, 0xFF, 0xFF, 0xFF, 0xFF, 0xFF, 0x7F], 8),
  ([0x00, 0x00, 0x00, 0x00, 0x00, 0x00, 0x00, 0x80], 8),
  ([0x01, 0x00, 0x00, 0x00, 0x00, 0x00, 0x00, 0x80], 8),
  ([0xFE, 0xFF, 0xFF, 0xFF, 0xFF, 0xFF, 0xFF, 0xFF], 8)]

/-- `mangle_MagicOverwrite` (mangle.c lines 464-469): offset first, then a
uniform choice from the magic table. -/
def mangle_MagicOverwrite : Mangler := fun env run printable c =>
  let oc := mangle_getOffSet env run c
  let cc := util_rndGet env 0 (mangleMagicVals.length - 1) oc.2
  let e := mangleMagicVals.getD cc.1 ([], 0)
  (mangle_Overwrite run oc.1 (Src.ext e.1) e.2 printable, cc.2)

/-- `mangle_MagicInsert` (mangle.c lines 471-475): table choice first, then the
offset. -/
def mangle_MagicInsert : Mangler := fun env run printable c =>
  let cc := util_rndGet env 0 (mangleMagicVals.length - 1) c
  let e := mangleMagicVals.getD cc.1 ([], 0)
  let oc := mangle_getOffSet env run cc.2
  (mangle_Insert run oc.1 (Src.ext e.1) e.2 printable, oc.2)

/-- `mangle_DictionaryOverwrite` (mangle.c lines 477-486): fall through to
`BytesOverwrite` when the dictionary is empty; otherwise offset, then a uniform
dictionary choice. -/
def mangle_DictionaryOverwrite : Mangler := fun env run printable c =>
  if run.global.mutate.dictionaryCnt = 0 then mangle_BytesOverwrite env run printable c
  else
    let oc := mangle_getOffSet env run c
    let cc := util_rndGet env 0 (run.global.mutate.dictionaryCnt - 1) oc.2
    let e := run.global.mutate.dictionary.getD cc.1 ⟨[], 0⟩
    (mangle_Overwrite run oc.1 (Src.ext e.val) e.len printable, cc.2)

/-- `mangle_DictionaryInsert` (mangle.c lines 488-497): fall through to
`BytesInsert` when the dictionary is empty; otherwise dictionary choice first,
then the offset. -/
def mangle_DictionaryInsert : Mangler := fun env run printable c =>
  if run.global.mutate.dictionaryCnt = 0 then mangle_BytesInsert env run printable c
  else
    let cc := util_rndGet env 0 (run.global.mutate.dictionaryCnt - 1) c
    let e := run.global.mutate.dictionary.getD cc.1 ⟨[], 0⟩
    let oc := mangle_getOffSet env run cc.2
    (mangle_Insert run oc.1 (Src.ext e.val) e.len printable, oc.2)

/-- `mangle_FeedbackDict` (mangle.c lines 499-517): a token from the
comparison-feedback map, or `none` when feedback is off, the map is empty, or
the chosen entry has zero length; the entry count is capped by the array size. -/
def mangle_FeedbackDict (env : Env) (run : Run) (c : Cursor) :
    Option (List Nat × Nat) × Cursor :=
  if run.global.feedback.cmpFeedback = false then (none, c)
  else
    let cnt := run.global.feedback.cmpFeedbackMap.cnt
    if cnt = 0 then (none, c)
    else
      let cnt := if cnt > run.global.feedback.cmpFeedbackMap.valArr.length
                 then run.global.feedback.cmpFeedbackMap.valArr.length else cnt
      let cc := util_rndGet env 0 (cnt - 1) c
      let e := run.global.feedback.cmpFeedbackMap.valArr.getD cc.1 ⟨[], 0⟩
      if e.len = 0 then (none, cc.2) else (some (e.val, e.len), cc.2)

/-- `mangle_ConstFeedbackInsert` (mangle.c lines 519-528): insert a feedback
token, falling through to `BytesInsert` when none is available. -/
def mangle_ConstFeedbackInsert : Mangler := fun env run printable c =>
  let vc := mangle_FeedbackDict env run c
  match vc.1 with
  | none => mangle_BytesInsert env run printable vc.2
  | some (val, len) =>
    let oc := mangle_getOffSet env run vc.2
    (mangle_Insert run oc.1 (Src.ext val) len printable, oc.2)

/-- `mangle_ConstFeedbackOverwrite` (mangle.c lines 530-539): overwrite with a
feedback token, falling through to `BytesOverwrite` when none is available. -/
def mangle_ConstFeedbackOverwrite : Mangler := fun env run printable c =>
  let vc := mangle_FeedbackDict env run c
  match vc.1 with
  | none => mangle_BytesOverwrite env run printable vc.2
  | some (val, len) =>
    let oc := mangle_getOffSet env run vc.2
    (mangle_Overwrite run oc.1 (Src.ext val) len printable, oc.2)

/-- `mangle_MemSet` (mangle.c lines 541-547): fill `len` bytes at `off` with one
random byte (printable when requested). -/
def mangle_MemSet : Mangler := fun env run printable c =>
  let oc := mangle_getOffSet env run c
  let lc := mangle_getLen env (min HF_MAX_LEN_BLOCK (run.dynfile.size - oc.1)) oc.2
  let vc := if printable then util_rndPrintable env lc.2 else util_rndGet env 0 255 lc.2
  ({ run with dynfile := { run.dynfile with
      data := writeBytes run.dynfile.data oc.1 (List.replicate lc.1 vc.1) } }, vc.2)

/-- `mangle_RandomOverwrite` (mangle.c lines 549-557): fill `len` bytes at `off`
with random (printable when requested) bytes. -/
def mangle_RandomOverwrite : Mangler := fun env run printable c =>
  let oc := mangle_getOffSet env run c
  let lc := mangle_getLen env (min HF_MAX_LEN_BLOCK (run.dynfile.size - oc.1)) oc.2
  let bc := if printable then util_rndBufPrintable env lc.1 lc.2 else util_rndBuf env lc.1 lc.2
  ({ run with dynfile := { run.dynfile with
      data := writeBytes run.dynfile.data oc.1 bc.1 } }, bc.2)

/-- `mangle_RandomInsert` (mangle.c lines 559-570): inflate at `off`, then fill
the opened gap with random (printable when requested) bytes. -/
def mangle_RandomInsert : Mangler := fun env run printable c =>
  let oc := mangle_getOffSet env run c
  let lc := mangle_getLen env (min HF_MAX_LEN_BLOCK (run.dynfile.size - oc.1)) oc.2
  let rl := mangle_Inflate run oc.1 lc.1 printable
  let bc := if printable then util_rndBufPrintable env rl.2 lc.2 else util_rndBuf env rl.2 lc.2
  ({ rl.1 with dynfile := { rl.1.dynfile with
      data := writeBytes rl.1.dynfile.data oc.1 bc.1 } }, bc.2)

/-- `mangle_AddSubWithRange` (mangle.c lines 572-627): add a random signed
`delta` in `[-range, range]` to the `varLen`-byte integer at `off`. The 1-byte
case adds directly to `data[off]`; the 2/4/8-byte cases read the value
(little-endian host), optionally byte-swap to foreign endianness around the
addition, and store the result through `mangle_Overwrite`. Any other `varLen` is
a fatal abort in the source; this embedding returns the run unchanged there. -/
def mangle_AddSubWithRange (env : Env) (run : Run) (off varLen : Nat)
    (range : Nat) (printable : Bool) (c : Cursor) : Run × Cursor :=
  let dc := util_rndGet env 0 (range * 2) c
  let delta : Int := (dc.1 : Int) - (range : Int)
  if varLen = 1 then
    ({ run with dynfile := { run.dynfile with
        data := writeBytes run.dynfile.data off
          [byteOfInt ((run.dynfile.data.getD off 0 : Int) + delta)] } }, dc.2)
  else if varLen = 2 ∨ varLen = 4 ∨ varLen = 8 then
    let val := leGet run.dynfile.data off varLen
    let ec := util_rnd64 env dc.2
    let val' := if ec.1 % 2 = 1 then wrapBytes ((val : Int) + delta) varLen
      else bswap (wrapBytes ((bswap val varLen : Int) + delta) varLen) varLen
    (mangle_Overwrite run off (Src.ext (leBytes val' varLen)) varLen printable, ec.2)
  else (run, dc.2)

/-- `mangle_AddSub` (mangle.c lines 629-657): pick a width in `{1,2,4,8}`, clamp
it to 1 when fewer than `varLen` bytes remain at `off`, pick the matching range,
and delegate to `mangle_AddSubWithRange`. The range switch's default is a fatal
abort in the source and is unreachable (`varLen ∈ {1,2,4,8}`). -/
def mangle_AddSub : Mangler := fun env run printable c =>
  let oc := mangle_getOffSet env run c
  let wc := util_rndGet env 0 3 oc.2
  let varLen := 2 ^ wc.1
  let varLen := if run.dynfile.size - oc.1 < varLen then 1 else varLen
  let range : Nat :=
    if varLen = 1 then 16
    else if varLen = 2 then 4096
    else if varLen = 4 then 1048576
    else if varLen = 8 then 268435456
    else 0
  mangle_AddSubWithRange env run oc.1 varLen range printable wc.2

/-- `mangle_IncByte` (mangle.c lines 659-666): increment `data[off]`, wrapping
inside the printable ring `[0x20, 0x7E]` when printable (C `%` truncates, hence
`Int.tmod`). -/
def mangle_IncByte : Mangler := fun env run printable c =>
  let oc := mangle_getOffSet env run c
  let b := run.dynfile.data.getD oc.1 0
  let b' := if printable then byteOfInt (Int.tmod ((b : Int) - 32 + 1) 95 + 32)
            else (b + 1) % 256
  ({ run with dynfile := { run.dynfile with
      data := writeBytes run.dynfile.data oc.1 [b'] } }, oc.2)

/-- `mangle_DecByte` (mangle.c lines 668-675): decrement `data[off]`, wrapping
inside the printable ring when printable. -/
def mangle_DecByte : Mangler := fun env run printable c =>
  let oc := mangle_getOffSet env run c
  let b := run.dynfile.data.getD oc.1 0
  let b' := if printable then byteOfInt (Int.tmod ((b : Int) - 32 + 94) 95 + 32)
            else (b + 255) % 256
  ({ run with dynfile := { run.dynfile with
      data := writeBytes run.dynfile.data oc.1 [b'] } }, oc.2)

/-- `mangle_NegByte` (mangle.c lines 677-684): bitwise NOT of `data[off]`, or
the mirror inside the printable range when printable. -/
def mangle_NegByte : Mangler := fun env run printable c =>
  let oc := mangle_getOffSet env run c
  let b := run.dynfile.data.getD oc.1 0
  let b' := if printable then byteOfInt (94 - ((b : Int) - 32) + 32)
            else 255 - b % 256
  ({ run with dynfile := { run.dynfile with
      data := writeBytes run.dynfile.data oc.1 [b'] } }, oc.2)

/-- `mangle_Expand` (mangle.c lines 686-696): inflate at `off` by a small length
with probability 15/16, else by a length up to `maxInputSz - off`. -/
def mangle_Expand : Mangler := fun env run printable c =>
  let oc := mangle_getOffSet env run c
  let rc := util_rnd64 env oc.2
  let lc := if rc.1 % 16 ≠ 0 then
      mangle_getLen env (min 16 (run.global.mutate.maxInputSz - oc.1)) rc.2
    else mangle_getLen env (run.global.mutate.maxInputSz - oc.1) rc.2
  ((mangle_Inflate run oc.1 lc.1 printable).1, lc.2)

/-- `mangle_Shrink` (mangle.c lines 698-718): no-op when `size ≤ 2`; otherwise
remove a random block after `off_start` (small with probability 15/16), moving
the suffix left and reducing the size. -/
def mangle_Shrink : Mangler := fun env run _printable c =>
  if run.dynfile.size ≤ 2 then (run, c)
  else
    let oc := mangle_getOffSet env run c
    let off_start := oc.1
    let len := mangle_LenLeft run off_start
    if len = 0 then (run, oc.2)
    else
      let rc := util_rnd64 env oc.2
      let lc := if rc.1 % 16 ≠ 0 then mangle_getLen env (min 16 len) rc.2
                else mangle_getLen env len rc.2
      let off_end := off_start + lc.1
      let len_to_move := run.dynfile.size - off_end
      let run' := mangle_Move run off_end off_start len_to_move
      (input_setSize run' (run'.dynfile.size - lc.1), lc.2)

/-- `mangle_ASCIINumOverwrite` (mangle.c lines 719-727): overwrite a 2-8 byte
prefix of the left-justified decimal rendering of a random `int64_t`. -/
def mangle_ASCIINumOverwrite : Mangler := fun env run printable c =>
  let oc := mangle_getOffSet env run c
  let lc := util_rndGet env 2 8 oc.2
  let rc := util_rnd64 env lc.2
  (mangle_Overwrite run oc.1 (Src.ext (asciiNumBuf rc.1)) lc.1 printable, rc.2)

/-- `mangle_ASCIINumInsert` (mangle.c lines 729-737): insert a 2-8 byte prefix
of the left-justified decimal rendering of a random `int64_t`. -/
def mangle_ASCIINumInsert : Mangler := fun env run printable c =>
  let oc := mangle_getOffSet env run c
  let lc := util_rndGet env 2 8 oc.2
  let rc := util_rnd64 env lc.2
  (mangle_Insert run oc.1 (Src.ext (asciiNumBuf rc.1)) lc.1 printable, rc.2)

/-- `mangle_SpliceOverwrite` (mangle.c lines 739-751): overwrite with a random
slice of a random prior corpus input; fall through to `BytesOverwrite` when the
corpus is empty. -/
def mangle_SpliceOverwrite : Mangler := fun env run printable c =>
  let bc := input_getRandomInputAsBuf env c
  let sz := bc.1.length
  if sz = 0 then mangle_BytesOverwrite env run printable bc.2
  else
    let rc := mangle_getLen env sz bc.2
    let remoteOff := rc.1 - 1
    let oc := mangle_getOffSet env run rc.2
    let localOff := oc.1
    let lc := mangle_getLen env (min (sz - remoteOff) (run.dynfile.size - localOff)) oc.2
    (mangle_Overwrite run localOff (Src.ext (bc.1.drop remoteOff)) lc.1 printable, lc.2)

/-- `mangle_SpliceInsert` (mangle.c lines 753-765): insert a random slice of a
random prior corpus input; fall through to `BytesInsert` when the corpus is
empty. -/
def mangle_SpliceInsert : Mangler := fun env run printable c =>
  let bc := input_getRandomInputAsBuf env c
  let sz := bc.1.length
  if sz = 0 then mangle_BytesInsert env run printable bc.2
  else
    let rc := mangle_getLen env sz bc.2
    let remoteOff := rc.1 - 1
    let oc := mangle_getOffSet env run rc.2
    let localOff := oc.1
    let lc := mangle_getLen env (min (sz - remoteOff) (run.dynfile.size - localOff)) oc.2
    (mangle_Insert run localOff (Src.ext (bc.1.drop remoteOff)) lc.1 printable, lc.2)

/-- The 33-bucket categorical draw of `mangle_Resize` (mangle.c lines 771-794):
the candidate new size, as the signed `ssize_t` the source computes. -/
def mangle_ResizeChoice (env : Env) (run : Run) (c : Cursor) : Int × Cursor :=
  let oldsz : Int := (run.dynfile.size : Int)
  let cc := util_rndGet env 0 32 c
  if cc.1 = 0 then
    let rc := util_rndGet env 1 run.global.mutate.maxInputSz cc.2
    ((rc.1 : Int), rc.2)
  else if cc.1 ≤ 4 then
    let rc := util_rndGet env 0 8 cc.2
    (oldsz + (rc.1 : Int), rc.2)
  else if cc.1 = 5 then
    let rc := util_rndGet env 9 128 cc.2
    (oldsz + (rc.1 : Int), rc.2)
  else if cc.1 ≤ 9 then
    let rc := util_rndGet env 0 8 cc.2
    (oldsz - (rc.1 : Int), rc.2)
  else if cc.1 = 10 then
    let rc := util_rndGet env 9 128 cc.2
    (oldsz - (rc.1 : Int), rc.2)
  else (oldsz, cc.2)

/-- `mangle_Resize` (mangle.c lines 767-808): draw one of 33 buckets, compute a
new signed size, clamp it into `[1, maxInputSz]`, apply it, and pad the new tail
with spaces when growing in printable mode. The `default` switch arm is a fatal
abort in the source and is unreachable (`choice ≤ 32`). -/
def mangle_Resize : Mangler := fun env run printable c =>
  let oldsz : Int := (run.dynfile.size : Int)
  let nc := mangle_ResizeChoice env run c
  let newsz := if nc.1 < 1 then 1 else nc.1
  let newsz := if newsz > (run.global.mutate.maxInputSz : Int)
               then (run.global.mutate.maxInputSz : Int) else newsz
  let run' := input_setSize run newsz.toNat
  let run' := if newsz > oldsz ∧ printable then
      { run' with dynfile := { run'.dynfile with
          data := writeBytes run'.dynfile.data oldsz.toNat
            (List.replicate (newsz - oldsz).toNat 32) } }
    else run'
  (run', nc.2)

/-- The operator dispatch table `mangleFuncs` (mangle.c lines 811-842): `Shrink`
appears four times to counterbalance the growth operators. -/
def mangleFuncs : List Mangler := [
  mangle_Shrink,
  mangle_Shrink,
  mangle_Shrink,
  mangle_Shrink,
  mangle_Expand,
  mangle_Bit,
  mangle_IncByte,
  mangle_DecByte,
  mangle_NegByte,
  mangle_AddSub,
  mangle_MemSet,
  mangle_MemCopyOverwrite,
  mangle_MemCopyInsert,
  mangle_BytesOverwrite,
  mangle_BytesInsert,
  mangle_ASCIINumOverwrite,
  mangle_ASCIINumInsert,
  mangle_ByteRepeatOverwrite,
  mangle_ByteRepeatInsert,
  mangle_MagicOverwrite,
  mangle_MagicInsert,
  mangle_DictionaryOverwrite,
  mangle_DictionaryInsert,
  mangle_ConstFeedbackOverwrite,
  mangle_ConstFeedbackInsert,
  mangle_RandomOverwrite,
  mangle_RandomInsert,
  mangle_SpliceOverwrite,
  mangle_SpliceInsert]

/-- The main mutation loop (mangle.c lines 881-884): `changesCnt` times, pick a
uniform operator from the dispatch table and apply it with the global
`only_printable` flag. The `getD` default is never used (`choice ≤ 28`). -/
def mangleLoop (env : Env) : Nat → Run → Cursor → Run × Cursor
  | 0, run, c => (run, c)
  | n + 1, run, c =>
    let cc := util_rndGet env 0 (mangleFuncs.length - 1) c
    let rc := (mangleFuncs.getD cc.1 mangle_Shrink) env run run.global.cfg.only_printable cc.2
    mangleLoop env n rc.1 rc.2

/-- `mangle_mangleContent` (mangle.c lines 810-887): the dispatcher. Returns
immediately when the per-run mutation count is zero; bootstraps an empty buffer
with `Resize`; computes `changesCnt` from `slow_factor`; runs an extra splice
with probability 2/3 when the last coverage update is more than a second old
(`uint64_t` wrapping subtraction); then runs the main loop. -/
def mangle_mangleContent (env : Env) (run : Run) (slow_factor : Nat)
    (c : Cursor) : Run × Cursor :=
  if run.mutationsPerRun = 0 then (run, c)
  else
    let rc := if run.dynfile.size = 0 then
        mangle_Resize env run run.global.cfg.only_printable c
      else (run, c)
    let run := rc.1
    let nc : Nat × Cursor :=
      if slow_factor ≤ 2 then util_rndGet env 1 run.global.mutate.mutationsPerRun rc.2
      else if slow_factor ≤ 4 then (max run.global.mutate.mutationsPerRun 5, rc.2)
      else if slow_factor ≤ 9 then (max run.global.mutate.mutationsPerRun 7, rc.2)
      else (max run.global.mutate.mutationsPerRun 10, rc.2)
    let sc : Run × Cursor :=
      if subU64 env.now run.global.timing.lastCovUpdate > 1000 then
        let ec := util_rnd64 env nc.2
        if ec.1 % 3 = 0 then mangle_SpliceOverwrite env run run.global.cfg.only_printable ec.2
        else if ec.1 % 3 = 1 then mangle_SpliceInsert env run run.global.cfg.only_printable ec.2
        else (run, ec.2)
      else (run, nc.2)
    mangleLoop env nc.1 sc.1 sc.2

/-- The specification's reading of `move(from, to, len)` (spec section 4.1):
no-op when either offset is at or past `size`; otherwise read the whole source
slice of `min(size - from, size - to, len)` bytes, then write it at `to`. -/
def moveSpec (run : Run) (off_from off_to len : Nat) : Run :=
  if off_from ≥ run.dynfile.size ∨ off_to ≥ run.dynfile.size then run
  else
    let effLen := min (min (run.dynfile.size - off_from) (run.dynfile.size - off_to)) len
    { run with dynfile := { run.dynfile with
        data := writeBytes run.dynfile.data off_to
          ((run.dynfile.data.drop off_from).take effLen) } }

/-- An operator preserves the run's global state, never pushes `size` above
`maxInputSz`, and never empties a non-empty buffer. -/
def Pres (f : Mangler) : Prop :=
  ∀ env run p c,
    (f env run p c).1.global = run.global ∧
    (run.dynfile.size ≤ run.global.mutate.maxInputSz →
      (f env run p c).1.dynfile.size ≤ run.global.mutate.maxInputSz) ∧
    (1 ≤ run.dynfile.size → 1 ≤ (f env run p c).1.dynfile.size)

/-- The invariant carried through the dispatcher: the global state is the fixed
`g`, and the size stays in `[1, maxInputSz]`. -/
def Inv (g : Global) (run : Run) : Prop :=
  run.global = g ∧ 1 ≤ run.dynfile.size ∧ run.dynfile.size ≤ g.mutate.maxInputSz

/-! ### Concrete states for witness evaluations -/

/-- A small concrete global configuration. -/
def gW : Global := {
  mutate := { maxInputSz := 4, mutationsPerRun := 1, dictionaryCnt := 0, dictionary := [] },
  feedback := { cmpFeedback := false, cmpFeedbackMap := { cnt := 0, valArr := [] } },
  cfg := { only_printable := false },
  timing := { lastCovUpdate := 0 } }

/-- A small concrete run: 2 live bytes in a 4-byte backing store. -/
def runW : Run := {
  dynfile := { data := [65, 66, 67, 68], size := 2 },
  global := gW,
  mutationsPerRun := 1 }

/-- A run with mutation disabled (`mutationsPerRun = 0`). -/
def runW0 : Run := { runW with mutationsPerRun := 0 }

/-- A run whose buffer is empty on entry. -/
def runE : Run := { runW with dynfile := { data := [65, 66, 67, 68], size := 0 } }

/-- A constant zero oracle. -/
def envW : Env := { rnd := fun _ => 0, splice := fun _ => [], now := 0 }

/-- The initial oracle cursor. -/
def c0 : Cursor := { r := 0, s := 0 }

/-- A printable-mode run: a single printable byte (a space). -/
def runC1 : Run := {
  dynfile := { data := [32, 32, 32, 32], size := 1 },
  global := { gW with cfg := { only_printable := true } },
  mutationsPerRun := 1 }

/-- An oracle steering the dispatcher into `mangle_AddSub` with width 1 and
`delta = -16`: draw 0 gives `changesCnt = 1`, draw 1 (`= 9`) selects entry 9 of
the dispatch table (`mangle_AddSub`), draw 2 picks `varLen = 1`, draw 3 picks
`delta = 0 - 16`. -/
def envC1 : Env := { rnd := fun n => if n = 1 then 9 else 0, splice := fun _ => [], now := 0 }


/-! ### Basic lemmas about the byte-writing primitive and the RNG -/

theorem length_writeBytes (l src : List Nat) (off : Nat) :
    (writeBytes l off src).length = l.length := by
  unfold writeBytes
  rw [List.length_append, List.length_append, List.length_take, List.length_take,
    List.length_drop]
  rcases Nat.le_total off l.length with h | h
  · rcases Nat.le_total src.length (l.length - off) with h2 | h2
    · rw [Nat.min_eq_left h, Nat.min_eq_right h2,
        Nat.add_sub_cancel' (by omega : off + src.length ≤ l.length)]
    · rw [Nat.min_eq_left h, Nat.min_eq_left h2,
        Nat.sub_eq_zero_of_le (by omega : l.length ≤ off + src.length),
        Nat.add_zero, Nat.add_sub_cancel' h]
  · rw [Nat.min_eq_right h, Nat.sub_eq_zero_of_le h, Nat.zero_min,
      Nat.sub_eq_zero_of_le (le_trans h (Nat.le_add_right off src.length)),
      Nat.add_zero]

theorem writeBytes_nil (l : List Nat) (off : Nat) : writeBytes l off [] = l := by
  simp [writeBytes]

theorem writeBytes_read (l src : List Nat) (off : Nat) (h : off + src.length ≤ l.length) :
    ((writeBytes l off src).drop off).take src.length = src := by
  unfold writeBytes
  rw [List.append_assoc,
    List.drop_left' (by rw [List.length_take]; exact Nat.min_eq_left (by omega)),
    List.take_of_length_le (l := src) (by omega), List.take_left]

theorem writeBytes_drop (l src : List Nat) (off : Nat) (h : off + src.length ≤ l.length) :
    (writeBytes l off src).drop (off + src.length) = l.drop (off + src.length) := by
  unfold writeBytes
  exact List.drop_left'
    (by rw [List.length_append, List.length_take, List.length_take,
          Nat.min_eq_left (show off ≤ l.length from by omega),
          Nat.min_eq_right (show src.length ≤ l.length - off from by omega)])

theorem util_rndGet_le (env : Env) (mi ma : Nat) (c : Cursor) (h : mi ≤ ma) :
    (util_rndGet env mi ma c).1 ≤ ma := by
  have hlt : env.rnd c.r % U64 % (ma - mi + 1) < ma - mi + 1 :=
    Nat.mod_lt _ (by omega)
  simp only [util_rndGet, util_rnd64]
  omega

/-- Core arithmetic of the x^2 length sampler: for a legal `max` the `uint64_t`
computation `(rnd * rnd) / max^3 + 1` never exceeds `max`, even when `rnd * rnd`
wraps modulo `2^64` (which can happen for `max > 2^16`). -/
theorem getLen_core_le (mx rnd : Nat) (hmx2 : 2 ≤ mx) (hHF : mx ≤ HF_INPUT_MAX_SIZE)
    (hr : rnd < mx * mx) :
    rnd * rnd % U64 / (mx * mx * mx % U64) + 1 ≤ mx := by
  have hmx20 : mx ≤ 2 ^ 20 := by
    have : HF_INPUT_MAX_SIZE = 2 ^ 20 := by norm_num [HF_INPUT_MAX_SIZE]
    omega
  have h3U : mx * mx * mx < U64 := by
    have hle : mx * mx * mx ≤ 2 ^ 20 * 2 ^ 20 * 2 ^ 20 :=
      Nat.mul_le_mul (Nat.mul_le_mul hmx20 hmx20) hmx20
    have hU : (2 : Nat) ^ 20 * 2 ^ 20 * 2 ^ 20 < 2 ^ 64 := by norm_num
    simp only [U64]; omega
  rw [Nat.mod_eq_of_lt h3U]
  have hmxpos : 0 < mx := by omega
  have hkey : rnd * rnd % U64 < mx * (mx * mx * mx) := by
    have hr4 : rnd * rnd < mx * mx * (mx * mx) := Nat.mul_lt_mul'' hr hr
    have heq : mx * mx * (mx * mx) = mx * (mx * mx * mx) := by ring
    rcases Nat.lt_or_ge (rnd * rnd) U64 with hc | hc
    · rw [Nat.mod_eq_of_lt hc]; omega
    · have hmod : rnd * rnd % U64 < U64 := Nat.mod_lt _ (by norm_num [U64])
      omega
  have hdiv : rnd * rnd % U64 / (mx * mx * mx) < mx :=
    (Nat.div_lt_iff_lt_mul (Nat.mul_pos (Nat.mul_pos hmxpos hmxpos) hmxpos)).mpr hkey
  omega

/-- The biased length sampler never exceeds its argument (unconditionally: the
fatal branches of the source return 0 in this embedding). -/
theorem mangle_getLen_le (env : Env) (mx : Nat) (c : Cursor) :
    (mangle_getLen env mx c).1 ≤ mx := by
  simp only [mangle_getLen]
  split
  · simp
  split
  · simp_all
  split
  · simp_all
  next h1 h2 h3 =>
  have hmx2 : 2 ≤ mx := by omega
  have h2U : mx * mx < U64 := by
    have hle : mx * mx ≤ HF_INPUT_MAX_SIZE * HF_INPUT_MAX_SIZE :=
      Nat.mul_le_mul (by omega) (by omega)
    have hU : HF_INPUT_MAX_SIZE * HF_INPUT_MAX_SIZE < U64 := by
      norm_num [HF_INPUT_MAX_SIZE, U64]
    omega
  have h4 : 4 ≤ mx * mx := Nat.mul_le_mul hmx2 hmx2
  rw [Nat.mod_eq_of_lt h2U]
  have hrle : (util_rndGet env 1 (mx * mx - 1) c).1 ≤ mx * mx - 1 :=
    util_rndGet_le env 1 (mx * mx - 1) c (by omega)
  exact getLen_core_le mx _ hmx2 (by omega) (by omega)

/-- The biased length sampler returns at least 1 whenever its argument is a
legal one (`1 ≤ max ≤ _HF_INPUT_MAX_SIZE`). -/
theorem mangle_getLen_ge (env : Env) (mx : Nat) (c : Cursor)
    (h1 : 1 ≤ mx) (h2 : mx ≤ HF_INPUT_MAX_SIZE) :
    1 ≤ (mangle_getLen env mx c).1 := by
  simp only [mangle_getLen]
  rw [if_neg (by omega), if_neg (by omega)]
  split
  · omega
  · simp

theorem mangle_getOffSet_le (env : Env) (run : Run) (c : Cursor) :
    (mangle_getOffSet env run c).1 ≤ run.dynfile.size - 1 := by
  simp only [mangle_getOffSet]
  have := mangle_getLen_le env run.dynfile.size c
  omega

/-! ### Size and frame lemmas for the buffer primitives -/

theorem mangle_Move_global (run : Run) (f t l : Nat) :
    (mangle_Move run f t l).global = run.global := by
  unfold mangle_Move
  split
  · rfl
  split <;> rfl

theorem mangle_Move_size (run : Run) (f t l : Nat) :
    (mangle_Move run f t l).dynfile.size = run.dynfile.size := by
  unfold mangle_Move
  split
  · rfl
  split <;> rfl

theorem mangle_Overwrite_global (run : Run) (off : Nat) (src : Src) (len : Nat)
    (p : Bool) : (mangle_Overwrite run off src len p).global = run.global := by
  unfold mangle_Overwrite
  split <;> rfl

theorem mangle_Overwrite_size (run : Run) (off : Nat) (src : Src) (len : Nat)
    (p : Bool) :
    (mangle_Overwrite run off src len p).dynfile.size = run.dynfile.size := by
  unfold mangle_Overwrite
  split <;> rfl

theorem setData_size (run : Run) (d : List Nat) :
    ({ run with dynfile := { run.dynfile with data := d } }).dynfile.size
      = run.dynfile.size := rfl

theorem setData_global (run : Run) (d : List Nat) :
    ({ run with dynfile := { run.dynfile with data := d } }).global = run.global := rfl

/-- Unfolding equation for `mangle_Inflate`, stated with the source's `let`
bindings so that proofs can introduce them as local definitions. -/
theorem mangle_Inflate_eq (run : Run) (off len : Nat) (printable : Bool) :
    mangle_Inflate run off len printable =
      if run.dynfile.size ≥ run.global.mutate.maxInputSz then (run, 0)
      else
        let a := if len > run.global.mutate.maxInputSz - run.dynfile.size
                 then run.global.mutate.maxInputSz - run.dynfile.size else len
        let r1 := input_setSize run (run.dynfile.size + a)
        let r2 := mangle_Move r1 off (off + a) r1.dynfile.size
        let r3 := if printable then
            { r2 with dynfile := { r2.dynfile with
                data := writeBytes r2.dynfile.data off (List.replicate a 32) } }
          else r2
        (r3, a) := rfl

theorem mangle_Inflate_global (run : Run) (off len : Nat) (p : Bool) :
    (mangle_Inflate run off len p).1.global = run.global := by
  rw [mangle_Inflate_eq]
  split
  · rfl
  show
    let a := if len > run.global.mutate.maxInputSz - run.dynfile.size
             then run.global.mutate.maxInputSz - run.dynfile.size else len
    let r1 := input_setSize run (run.dynfile.size + a)
    let r2 := mangle_Move r1 off (off + a) r1.dynfile.size
    let r3 := if p then
        { r2 with dynfile := { r2.dynfile with
            data := writeBytes r2.dynfile.data off (List.replicate a 32) } }
      else r2
    ((r3, a).1.global = run.global)
  intro a r1 r2 r3
  have h3 : r3.global = r2.global := by
    show (if p then { r2 with dynfile := { r2.dynfile with
        data := writeBytes r2.dynfile.data off (List.replicate a 32) } }
      else r2).global = _
    split
    · rw [setData_global]
    · rfl
  have h2 : r2.global = r1.global := by
    show (mangle_Move r1 off (off + a) r1.dynfile.size).global = _
    rw [mangle_Move_global]
  have h1 : r1.global = run.global := rfl
  show r3.global = run.global
  rw [h3, h2, h1]

theorem mangle_Inflate_size_ge (run : Run) (off len : Nat) (p : Bool) :
    run.dynfile.size ≤ (mangle_Inflate run off len p).1.dynfile.size := by
  rw [mangle_Inflate_eq]
  split
  · exact le_rfl
  show
    let a := if len > run.global.mutate.maxInputSz - run.dynfile.size
             then run.global.mutate.maxInputSz - run.dynfile.size else len
    let r1 := input_setSize run (run.dynfile.size + a)
    let r2 := mangle_Move r1 off (off + a) r1.dynfile.size
    let r3 := if p then
        { r2 with dynfile := { r2.dynfile with
            data := writeBytes r2.dynfile.data off (List.replicate a 32) } }
      else r2
    (run.dynfile.size ≤ (r3, a).1.dynfile.size)
  intro a r1 r2 r3
  have h3 : r3.dynfile.size = r2.dynfile.size := by
    show (if p then { r2 with dynfile := { r2.dynfile with
        data := writeBytes r2.dynfile.data off (List.replicate a 32) } }
      else r2).dynfile.size = _
    split
    · rw [setData_size]
    · rfl
  have h2 : r2.dynfile.size = r1.dynfile.size := by
    show (mangle_Move r1 off (off + a) r1.dynfile.size).dynfile.size = _
    rw [mangle_Move_size]
  have h1 : r1.dynfile.size = run.dynfile.size + a := rfl
  show run.dynfile.size ≤ r3.dynfile.size
  rw [h3, h2, h1]
  exact Nat.le_add_right _ _

theorem mangle_Inflate_size_le (run : Run) (off len : Nat) (p : Bool) :
    (mangle_Inflate run off len p).1.dynfile.size
      ≤ max run.dynfile.size run.global.mutate.maxInputSz := by
  rw [mangle_Inflate_eq]
  split
  · exact le_max_left _ _
  next h =>
  show
    let a := if len > run.global.mutate.maxInputSz - run.dynfile.size
             then run.global.mutate.maxInputSz - run.dynfile.size else len
    let r1 := input_setSize run (run.dynfile.size + a)
    let r2 := mangle_Move r1 off (off + a) r1.dynfile.size
    let r3 := if p then
        { r2 with dynfile := { r2.dynfile with
            data := writeBytes r2.dynfile.data off (List.replicate a 32) } }
      else r2
    ((r3, a).1.dynfile.size ≤ max run.dynfile.size run.global.mutate.maxInputSz)
  intro a r1 r2 r3
  have haM2 : a ≤ run.global.mutate.maxInputSz - run.dynfile.size := by
    show (if len > run.global.mutate.maxInputSz - run.dynfile.size
          then run.global.mutate.maxInputSz - run.dynfile.size else len) ≤ _
    split
    · exact le_rfl
    next h2 => exact Nat.le_of_not_lt h2
  have h3 : r3.dynfile.size = r2.dynfile.size := by
    show (if p then { r2 with dynfile := { r2.dynfile with
        data := writeBytes r2.dynfile.data off (List.replicate a 32) } }
      else r2).dynfile.size = _
    split
    · rw [setData_size]
    · rfl
  have h2s : r2.dynfile.size = r1.dynfile.size := by
    show (mangle_Move r1 off (off + a) r1.dynfile.size).dynfile.size = _
    rw [mangle_Move_size]
  have h1s : r1.dynfile.size = run.dynfile.size + a := rfl
  show r3.dynfile.size ≤ _
  rw [h3, h2s, h1s]
  exact le_trans (Nat.add_le_add_left haM2 _)
    (le_trans (le_of_eq (Nat.add_sub_cancel' (Nat.le_of_not_le h)))
      (le_max_right _ _))

theorem mangle_Insert_global (run : Run) (off : Nat) (src : Src) (len : Nat)
    (p : Bool) : (mangle_Insert run off src len p).global = run.global := by
  unfold mangle_Insert
  rw [mangle_Overwrite_global, mangle_Inflate_global]

theorem mangle_Insert_size_ge (run : Run) (off : Nat) (src : Src) (len : Nat)
    (p : Bool) :
    run.dynfile.size ≤ (mangle_Insert run off src len p).dynfile.size := by
  unfold mangle_Insert
  rw [mangle_Overwrite_size]
  exact mangle_Inflate_size_ge run off len p

theorem mangle_Insert_size_le (run : Run) (off : Nat) (src : Src) (len : Nat)
    (p : Bool) :
    (mangle_Insert run off src len p).dynfile.size
      ≤ max run.dynfile.size run.global.mutate.maxInputSz := by
  unfold mangle_Insert
  rw [mangle_Overwrite_size]
  exact mangle_Inflate_size_le run off len p

/-! ### Per-operator preservation of the size bounds -/

theorem pres_of_size_eq (f : Mangler)
    (h : ∀ env run p c, (f env run p c).1.global = run.global ∧
      (f env run p c).1.dynfile.size = run.dynfile.size) : Pres f := by
  intro env run p c
  obtain ⟨hg, hs⟩ := h env run p c
  exact ⟨hg, fun hle => hs ▸ hle, fun h1 => hs ▸ h1⟩

theorem pres_of_size_bounds (f : Mangler)
    (h : ∀ env run p c, (f env run p c).1.global = run.global ∧
      run.dynfile.size ≤ (f env run p c).1.dynfile.size ∧
      (f env run p c).1.dynfile.size
        ≤ max run.dynfile.size run.global.mutate.maxInputSz) : Pres f := by
  intro env run p c
  obtain ⟨hg, hs1, hs2⟩ := h env run p c
  refine ⟨hg, fun hle => ?_, fun h1 => le_trans h1 hs1⟩
  omega

theorem pres_MemCopyOverwrite : Pres mangle_MemCopyOverwrite := by
  apply pres_of_size_eq
  intro env run p c
  simp only [mangle_MemCopyOverwrite]
  exact ⟨mangle_Overwrite_global _ _ _ _ _, mangle_Overwrite_size _ _ _ _ _⟩

theorem pres_MemCopyInsert : Pres mangle_MemCopyInsert := by
  apply pres_of_size_bounds
  intro env run p c
  simp only [mangle_MemCopyInsert]
  exact ⟨mangle_Insert_global _ _ _ _ _, mangle_Insert_size_ge _ _ _ _ _,
    mangle_Insert_size_le _ _ _ _ _⟩

theorem pres_BytesOverwrite : Pres mangle_BytesOverwrite := by
  apply pres_of_size_eq
  intro env run p c
  simp only [mangle_BytesOverwrite]
  exact ⟨mangle_Overwrite_global _ _ _ _ _, mangle_Overwrite_size _ _ _ _ _⟩

theorem pres_BytesInsert : Pres mangle_BytesInsert := by
  apply pres_of_size_bounds
  intro env run p c
  simp only [mangle_BytesInsert]
  exact ⟨mangle_Insert_global _ _ _ _ _, mangle_Insert_size_ge _ _ _ _ _,
    mangle_Insert_size_le _ _ _ _ _⟩

theorem pres_ByteRepeatOverwrite : Pres mangle_ByteRepeatOverwrite := by
  intro env run p c
  simp only [mangle_ByteRepeatOverwrite]
  split
  · exact pres_BytesOverwrite env run p _
  · exact ⟨rfl, fun h => h, fun h => h⟩

theorem pres_ByteRepeatInsert : Pres mangle_ByteRepeatInsert := by
  intro env run p c
  simp only [mangle_ByteRepeatInsert]
  split
  · exact pres_BytesInsert env run p _
  · refine ⟨?_, fun hle => ?_, fun h1 => ?_⟩
    · rw [setData_global]; exact mangle_Inflate_global _ _ _ _
    · rw [setData_size]
      exact le_trans (mangle_Inflate_size_le _ _ _ _) (max_le hle le_rfl)
    · rw [setData_size]
      exact le_trans h1 (mangle_Inflate_size_ge _ _ _ _)

theorem pres_Bit : Pres mangle_Bit := by
  apply pres_of_size_eq
  intro env run p c
  exact ⟨rfl, rfl⟩

theorem pres_MagicOverwrite : Pres mangle_MagicOverwrite := by
  apply pres_of_size_eq
  intro env run p c
  simp only [mangle_MagicOverwrite]
  exact ⟨mangle_Overwrite_global _ _ _ _ _, mangle_Overwrite_size _ _ _ _ _⟩

theorem pres_MagicInsert : Pres mangle_MagicInsert := by
  apply pres_of_size_bounds
  intro env run p c
  simp only [mangle_MagicInsert]
  exact ⟨mangle_Insert_global _ _ _ _ _, mangle_Insert_size_ge _ _ _ _ _,
    mangle_Insert_size_le _ _ _ _ _⟩

theorem pres_DictionaryOverwrite : Pres mangle_DictionaryOverwrite := by
  intro env run p c
  simp only [mangle_DictionaryOverwrite]
  split
  · exact pres_BytesOverwrite env run p c
  · refine ⟨mangle_Overwrite_global _ _ _ _ _, fun h => ?_, fun h => ?_⟩ <;>
      rw [mangle_Overwrite_size] <;> exact h

theorem pres_DictionaryInsert : Pres mangle_DictionaryInsert := by
  intro env run p c
  simp only [mangle_DictionaryInsert]
  split
  · exact pres_BytesInsert env run p c
  · refine ⟨mangle_Insert_global _ _ _ _ _, fun hle => ?_, fun h1 => ?_⟩
    · exact le_trans (mangle_Insert_size_le _ _ _ _ _) (max_le hle le_rfl)
    · exact le_trans h1 (mangle_Insert_size_ge _ _ _ _ _)

theorem pres_ConstFeedbackInsert : Pres mangle_ConstFeedbackInsert := by
  intro env run p c
  simp only [mangle_ConstFeedbackInsert]
  split
  · exact pres_BytesInsert env run p _
  · refine ⟨mangle_Insert_global _ _ _ _ _, fun hle => ?_, fun h1 => ?_⟩
    · exact le_trans (mangle_Insert_size_le _ _ _ _ _) (max_le hle le_rfl)
    · exact le_trans h1 (mangle_Insert_size_ge _ _ _ _ _)

theorem pres_ConstFeedbackOverwrite : Pres mangle_ConstFeedbackOverwrite := by
  intro env run p c
  simp only [mangle_ConstFeedbackOverwrite]
  split
  · exact pres_BytesOverwrite env run p _
  · refine ⟨mangle_Overwrite_global _ _ _ _ _, fun h => ?_, fun h => ?_⟩ <;>
      rw [mangle_Overwrite_size] <;> exact h

theorem pres_MemSet : Pres mangle_MemSet := by
  apply pres_of_size_eq
  intro env run p c
  exact ⟨rfl, rfl⟩

theorem pres_RandomOverwrite : Pres mangle_RandomOverwrite := by
  apply pres_of_size_eq
  intro env run p c
  exact ⟨rfl, rfl⟩

theorem pres_RandomInsert : Pres mangle_RandomInsert := by
  intro env run p c
  simp only [mangle_RandomInsert]
  refine ⟨?_, fun hle => ?_, fun h1 => ?_⟩
  · rw [setData_global]; exact mangle_Inflate_global _ _ _ _
  · rw [setData_size]
    exact le_trans (mangle_Inflate_size_le _ _ _ _) (max_le hle le_rfl)
  · rw [setData_size]
    exact le_trans h1 (mangle_Inflate_size_ge _ _ _ _)

theorem addSubWithRange_frame (env : Env) (run : Run) (off varLen range : Nat)
    (p : Bool) (c : Cursor) :
    (mangle_AddSubWithRange env run off varLen range p c).1.global = run.global ∧
    (mangle_AddSubWithRange env run off varLen range p c).1.dynfile.size
      = run.dynfile.size := by
  simp only [mangle_AddSubWithRange]
  split
  · exact ⟨rfl, rfl⟩
  split
  · exact ⟨mangle_Overwrite_global _ _ _ _ _, mangle_Overwrite_size _ _ _ _ _⟩
  · exact ⟨rfl, rfl⟩

theorem pres_AddSub : Pres mangle_AddSub := by
  apply pres_of_size_eq
  intro env run p c
  simp only [mangle_AddSub]
  exact addSubWithRange_frame _ _ _ _ _ _ _

theorem pres_IncByte : Pres mangle_IncByte := by
  apply pres_of_size_eq
  intro env run p c
  exact ⟨rfl, rfl⟩

theorem pres_DecByte : Pres mangle_DecByte := by
  apply pres_of_size_eq
  intro env run p c
  exact ⟨rfl, rfl⟩

theorem pres_NegByte : Pres mangle_NegByte := by
  apply pres_of_size_eq
  intro env run p c
  exact ⟨rfl, rfl⟩

theorem pres_Expand : Pres mangle_Expand := by
  apply pres_of_size_bounds
  intro env run p c
  simp only [mangle_Expand]
  exact ⟨mangle_Inflate_global _ _ _ _, mangle_Inflate_size_ge _ _ _ _,
    mangle_Inflate_size_le _ _ _ _⟩

theorem mangle_LenLeft_le (run : Run) (off : Nat) :
    mangle_LenLeft run off ≤ run.dynfile.size - 1 := by
  unfold mangle_LenLeft
  split <;> omega

theorem shrink_pick_le (env : Env) (r n : Nat) (c1 c2 : Cursor) :
    (if r % 16 ≠ 0 then mangle_getLen env (min 16 n) c1
     else mangle_getLen env n c2).1 ≤ n := by
  split
  · exact le_trans (mangle_getLen_le env (min 16 n) c1) (min_le_right 16 n)
  · exact mangle_getLen_le env n c2

theorem shrink_step_pres (run : Run) (off k : Nat)
    (hk : k ≤ mangle_LenLeft run off) :
    (input_setSize (mangle_Move run (off + k) off (run.dynfile.size - (off + k)))
        ((mangle_Move run (off + k) off
          (run.dynfile.size - (off + k))).dynfile.size - k)).global = run.global ∧
    (run.dynfile.size ≤ run.global.mutate.maxInputSz →
      (input_setSize (mangle_Move run (off + k) off (run.dynfile.size - (off + k)))
          ((mangle_Move run (off + k) off
            (run.dynfile.size - (off + k))).dynfile.size - k)).dynfile.size
        ≤ run.global.mutate.maxInputSz) ∧
    (1 ≤ run.dynfile.size →
      1 ≤ (input_setSize (mangle_Move run (off + k) off (run.dynfile.size - (off + k)))
          ((mangle_Move run (off + k) off
            (run.dynfile.size - (off + k))).dynfile.size - k)).dynfile.size) := by
  have hLL := mangle_LenLeft_le run off
  refine ⟨?_, fun hle => ?_, fun h1 => ?_⟩
  · simp [input_setSize, mangle_Move_global]
  all_goals
    simp only [input_setSize, mangle_Move_size]
    omega

/-- Unfolding equation for `mangle_Shrink`, stated with the source's `let`
bindings so that proofs can introduce them as local definitions. -/
theorem mangle_Shrink_eq (env : Env) (run : Run) (p : Bool) (c : Cursor) :
    mangle_Shrink env run p c =
      if run.dynfile.size ≤ 2 then (run, c)
      else
        let oc := mangle_getOffSet env run c
        let len := mangle_LenLeft run oc.1
        if len = 0 then (run, oc.2)
        else
          let rc := util_rnd64 env oc.2
          let lc := if rc.1 % 16 ≠ 0 then mangle_getLen env (min 16 len) rc.2
                    else mangle_getLen env len rc.2
          (input_setSize (mangle_Move run (oc.1 + lc.1) oc.1
              (run.dynfile.size - (oc.1 + lc.1)))
            ((mangle_Move run (oc.1 + lc.1) oc.1
              (run.dynfile.size - (oc.1 + lc.1))).dynfile.size - lc.1), lc.2) := rfl

theorem pres_Shrink : Pres mangle_Shrink := by
  intro env run p c
  rw [mangle_Shrink_eq]
  split
  · exact ⟨rfl, fun h => h, fun h => h⟩
  next hgt =>
  show
    let oc := mangle_getOffSet env run c
    let len := mangle_LenLeft run oc.1
    ((if len = 0 then ((run, oc.2) : Run × Cursor)
      else
        let rc := util_rnd64 env oc.2
        let lc := if rc.1 % 16 ≠ 0 then mangle_getLen env (min 16 len) rc.2
                  else mangle_getLen env len rc.2
        (input_setSize (mangle_Move run (oc.1 + lc.1) oc.1
            (run.dynfile.size - (oc.1 + lc.1)))
          ((mangle_Move run (oc.1 + lc.1) oc.1
            (run.dynfile.size - (oc.1 + lc.1))).dynfile.size - lc.1), lc.2)).1.global
        = run.global ∧
     (run.dynfile.size ≤ run.global.mutate.maxInputSz →
       (if len = 0 then ((run, oc.2) : Run × Cursor)
        else
          let rc := util_rnd64 env oc.2
          let lc := if rc.1 % 16 ≠ 0 then mangle_getLen env (min 16 len) rc.2
                    else mangle_getLen env len rc.2
          (input_setSize (mangle_Move run (oc.1 + lc.1) oc.1
              (run.dynfile.size - (oc.1 + lc.1)))
            ((mangle_Move run (oc.1 + lc.1) oc.1
              (run.dynfile.size - (oc.1 + lc.1))).dynfile.size - lc.1),
            lc.2)).1.dynfile.size
         ≤ run.global.mutate.maxInputSz) ∧
     (1 ≤ run.dynfile.size →
       1 ≤ (if len = 0 then ((run, oc.2) : Run × Cursor)
        else
          let rc := util_rnd64 env oc.2
          let lc := if rc.1 % 16 ≠ 0 then mangle_getLen env (min 16 len) rc.2
                    else mangle_getLen env len rc.2
          (input_setSize (mangle_Move run (oc.1 + lc.1) oc.1
              (run.dynfile.size - (oc.1 + lc.1)))
            ((mangle_Move run (oc.1 + lc.1) oc.1
              (run.dynfile.size - (oc.1 + lc.1))).dynfile.size - lc.1),
            lc.2)).1.dynfile.size))
  intro oc len
  split
  · exact ⟨rfl, fun h => h, fun h => h⟩
  next hlen =>
  exact shrink_step_pres run oc.1 _
    (shrink_pick_le env (util_rnd64 env oc.2).1 len ((util_rnd64 env oc.2).2)
      ((util_rnd64 env oc.2).2))

theorem pres_ASCIINumOverwrite : Pres mangle_ASCIINumOverwrite := by
  apply pres_of_size_eq
  intro env run p c
  simp only [mangle_ASCIINumOverwrite]
  exact ⟨mangle_Overwrite_global _ _ _ _ _, mangle_Overwrite_size _ _ _ _ _⟩

theorem pres_ASCIINumInsert : Pres mangle_ASCIINumInsert := by
  apply pres_of_size_bounds
  intro env run p c
  simp only [mangle_ASCIINumInsert]
  exact ⟨mangle_Insert_global _ _ _ _ _, mangle_Insert_size_ge _ _ _ _ _,
    mangle_Insert_size_le _ _ _ _ _⟩

theorem pres_SpliceOverwrite : Pres mangle_SpliceOverwrite := by
  intro env run p c
  simp only [mangle_SpliceOverwrite]
  split
  · exact pres_BytesOverwrite env run p _
  · refine ⟨mangle_Overwrite_global _ _ _ _ _, fun h => ?_, fun h => ?_⟩ <;>
      rw [mangle_Overwrite_size] <;> exact h

theorem pres_SpliceInsert : Pres mangle_SpliceInsert := by
  intro env run p c
  simp only [mangle_SpliceInsert]
  split
  · exact pres_BytesInsert env run p _
  · refine ⟨mangle_Insert_global _ _ _ _ _, fun hle => ?_, fun h1 => ?_⟩
    · exact le_trans (mangle_Insert_size_le _ _ _ _ _) (max_le hle le_rfl)
    · exact le_trans h1 (mangle_Insert_size_ge _ _ _ _ _)

/-- `mangle_Resize` preserves the global state, clamps the new size to at least
1 (when `maxInputSz ≥ 1`) and to at most `maxInputSz`, for any starting size. -/
theorem mangle_Resize_bounds (env : Env) (run : Run) (p : Bool) (c : Cursor) :
    (mangle_Resize env run p c).1.global = run.global ∧
    (mangle_Resize env run p c).1.dynfile.size ≤ run.global.mutate.maxInputSz ∧
    (1 ≤ run.global.mutate.maxInputSz → 1 ≤ (mangle_Resize env run p c).1.dynfile.size) := by
  unfold mangle_Resize
  dsimp only [input_setSize]
  generalize mangle_ResizeChoice env run c = z
  refine ⟨?_, ?_, ?_⟩
  · rw [apply_ite (fun r : Run => r.global)]
    dsimp only
    rw [ite_self]
  · rw [apply_ite (fun r : Run => r.dynfile.size)]
    dsimp only
    rw [ite_self]
    split_ifs <;> omega
  · intro h1
    rw [apply_ite (fun r : Run => r.dynfile.size)]
    dsimp only
    rw [ite_self]
    split_ifs <;> omega

/-- Every operator in the dispatch table preserves the size bounds. -/
theorem mangleFuncs_pres : ∀ f ∈ mangleFuncs, Pres f := by
  intro f hf
  simp only [mangleFuncs, List.mem_cons, List.not_mem_nil, or_false] at hf
  rcases hf with rfl | rfl | rfl | rfl | rfl | rfl | rfl | rfl | rfl | rfl | rfl | rfl |
    rfl | rfl | rfl | rfl | rfl | rfl | rfl | rfl | rfl | rfl | rfl | rfl | rfl | rfl |
    rfl | rfl | rfl
  exacts [pres_Shrink, pres_Shrink, pres_Shrink, pres_Shrink, pres_Expand, pres_Bit,
    pres_IncByte, pres_DecByte, pres_NegByte, pres_AddSub, pres_MemSet,
    pres_MemCopyOverwrite, pres_MemCopyInsert, pres_BytesOverwrite, pres_BytesInsert,
    pres_ASCIINumOverwrite, pres_ASCIINumInsert, pres_ByteRepeatOverwrite,
    pres_ByteRepeatInsert, pres_MagicOverwrite, pres_MagicInsert,
    pres_DictionaryOverwrite, pres_DictionaryInsert, pres_ConstFeedbackOverwrite,
    pres_ConstFeedbackInsert, pres_RandomOverwrite, pres_RandomInsert,
    pres_SpliceOverwrite, pres_SpliceInsert]

theorem pres_inv {f : Mangler} (hf : Pres f) (g : Global) (env : Env) (run : Run)
    (p : Bool) (c : Cursor) (h : Inv g run) : Inv g (f env run p c).1 := by
  obtain ⟨hg, h1, h2⟩ := h
  obtain ⟨pg, ps, p1⟩ := hf env run p c
  subst hg
  exact ⟨pg, p1 h1, ps h2⟩

theorem mangleLoop_inv (env : Env) (g : Global) (n : Nat) :
    ∀ run c, Inv g run → Inv g (mangleLoop env n run c).1 := by
  induction n with
  | zero => intro run c h; exact h
  | succ n ih =>
    intro run c h
    simp only [mangleLoop]
    apply ih
    have hle := util_rndGet_le env 0 (mangleFuncs.length - 1) c (Nat.zero_le _)
    have hlt : (util_rndGet env 0 (mangleFuncs.length - 1) c).1 < mangleFuncs.length := by
      have hlen : mangleFuncs.length = 29 := rfl
      omega
    have hmem : mangleFuncs.getD (util_rndGet env 0 (mangleFuncs.length - 1) c).1
        mangle_Shrink ∈ mangleFuncs := by
      rw [List.getD_eq_getElem _ _ hlt]
      exact List.getElem_mem hlt
    exact pres_inv (mangleFuncs_pres _ hmem) g env run run.global.cfg.only_printable _ h

/-- Unfolding equation for `mangle_mangleContent`, stated with the source's
`let` bindings so that proofs can introduce them as local definitions. -/
theorem mangleContent_eq (env : Env) (run : Run) (slow_factor : Nat) (c : Cursor) :
    mangle_mangleContent env run slow_factor c =
      if run.mutationsPerRun = 0 then (run, c)
      else
        let rc := if run.dynfile.size = 0 then
            mangle_Resize env run run.global.cfg.only_printable c
          else (run, c)
        let run' := rc.1
        let nc : Nat × Cursor :=
          if slow_factor ≤ 2 then util_rndGet env 1 run'.global.mutate.mutationsPerRun rc.2
          else if slow_factor ≤ 4 then (max run'.global.mutate.mutationsPerRun 5, rc.2)
          else if slow_factor ≤ 9 then (max run'.global.mutate.mutationsPerRun 7, rc.2)
          else (max run'.global.mutate.mutationsPerRun 10, rc.2)
        let sc : Run × Cursor :=
          if subU64 env.now run'.global.timing.lastCovUpdate > 1000 then
            let ec := util_rnd64 env nc.2
            if ec.1 % 3 = 0 then
              mangle_SpliceOverwrite env run' run'.global.cfg.only_printable ec.2
            else if ec.1 % 3 = 1 then
              mangle_SpliceInsert env run' run'.global.cfg.only_printable ec.2
            else (run', ec.2)
          else (run', nc.2)
        mangleLoop env nc.1 sc.1 sc.2 := rfl

/-- The dispatcher establishes and maintains the size bounds: the final size is
at most `maxInputSz`, and it is at least 1 whenever the buffer was non-empty on
entry or any mutation at all was allowed (`run->mutationsPerRun ≠ 0`). -/
theorem mangleContent_inv (env : Env) (run : Run) (slow_factor : Nat) (c : Cursor)
    (hmax1 : 1 ≤ run.global.mutate.maxInputSz)
    (hsz : run.dynfile.size ≤ run.global.mutate.maxInputSz) :
    (mangle_mangleContent env run slow_factor c).1.dynfile.size
      ≤ run.global.mutate.maxInputSz ∧
    (1 ≤ run.dynfile.size ∨ run.mutationsPerRun ≠ 0 →
      1 ≤ (mangle_mangleContent env run slow_factor c).1.dynfile.size) := by
  rw [mangleContent_eq]
  split
  next hmpr =>
    refine ⟨hsz, fun h => ?_⟩
    rcases h with h | h
    · exact h
    · exact absurd hmpr h
  next hmpr =>
  show
    let rc := if run.dynfile.size = 0 then
        mangle_Resize env run run.global.cfg.only_printable c
      else (run, c)
    let run' := rc.1
    let nc : Nat × Cursor :=
      if slow_factor ≤ 2 then util_rndGet env 1 run'.global.mutate.mutationsPerRun rc.2
      else if slow_factor ≤ 4 then (max run'.global.mutate.mutationsPerRun 5, rc.2)
      else if slow_factor ≤ 9 then (max run'.global.mutate.mutationsPerRun 7, rc.2)
      else (max run'.global.mutate.mutationsPerRun 10, rc.2)
    let sc : Run × Cursor :=
      if subU64 env.now run'.global.timing.lastCovUpdate > 1000 then
        let ec := util_rnd64 env nc.2
        if ec.1 % 3 = 0 then
          mangle_SpliceOverwrite env run' run'.global.cfg.only_printable ec.2
        else if ec.1 % 3 = 1 then
          mangle_SpliceInsert env run' run'.global.cfg.only_printable ec.2
        else (run', ec.2)
      else (run', nc.2)
    (mangleLoop env nc.1 sc.1 sc.2).1.dynfile.size ≤ run.global.mutate.maxInputSz ∧
    (1 ≤ run.dynfile.size ∨ run.mutationsPerRun ≠ 0 →
      1 ≤ (mangleLoop env nc.1 sc.1 sc.2).1.dynfile.size)
  intro rc run2 nc sc
  have hinv : Inv run.global rc.1 := by
    show Inv run.global (if run.dynfile.size = 0 then
        mangle_Resize env run run.global.cfg.only_printable c else (run, c)).1
    split
    next h0 =>
      obtain ⟨bg, bs, b1⟩ :=
        mangle_Resize_bounds env run run.global.cfg.only_printable c
      exact ⟨bg, b1 hmax1, bs⟩
    next h0 => exact ⟨rfl, show 1 ≤ run.dynfile.size by omega, hsz⟩
  have hinv2 : Inv run.global sc.1 := by
    show Inv run.global (if subU64 env.now run2.global.timing.lastCovUpdate > 1000 then
        if (util_rnd64 env nc.2).1 % 3 = 0 then
          mangle_SpliceOverwrite env run2 run2.global.cfg.only_printable
            (util_rnd64 env nc.2).2
        else if (util_rnd64 env nc.2).1 % 3 = 1 then
          mangle_SpliceInsert env run2 run2.global.cfg.only_printable
            (util_rnd64 env nc.2).2
        else (run2, (util_rnd64 env nc.2).2)
      else (run2, nc.2)).1
    split
    · split
      · exact pres_inv pres_SpliceOverwrite run.global env run2 _ _ hinv
      split
      · exact pres_inv pres_SpliceInsert run.global env run2 _ _ hinv
      · exact hinv
    · exact hinv
  have hfin := mangleLoop_inv env run.global nc.1 sc.1 sc.2 hinv2
  exact ⟨hfin.2.2, fun _ => hfin.2.1⟩

/-! ### Claim theorems -/

/-- C1 (code bug): `mangle_AddSubWithRange` with `varLen = 1` adds `delta` to
`data[off]` directly, with no printable remapping (mangle.c lines 577-580),
unlike its 2/4/8-byte cases which go through `mangle_Overwrite` with the
`printable` flag. On a printable buffer with `only_printable` set, one
`mangle_mangleContent` call that draws `AddSub` at width 1 with `delta = -16`
turns the byte `0x20` into `0x10`, which is outside `[0x20, 0x7E]`: printable
preservation fails at `AddSub` width 1. -/
theorem C1_addsub_width1_printable_bug :
    runC1.global.cfg.only_printable = true ∧
    (∀ b ∈ runC1.dynfile.data.take runC1.dynfile.size, 32 ≤ b ∧ b ≤ 126) ∧
    (mangle_AddSubWithRange envC1 runC1 0 1 16 true c0).1.dynfile.data.getD 0 0 = 16 ∧
    (mangle_mangleContent envC1 runC1 0 c0).1.dynfile.size = 1 ∧
    (mangle_mangleContent envC1 runC1 0 c0).1.dynfile.data.getD 0 0 = 16 ∧
    ¬ (32 ≤ 16) :=
  ⟨rfl, by decide, rfl, rfl, rfl, by decide⟩

/-- C2: for every buffer with `size ≤ max_input_sz` (and a positive size cap,
as the configuration requires) and every `slow_factor`, after
`mangle_mangleContent` the size is still at most `max_input_sz`; moreover every
individual operator of the dispatch table preserves that bound. -/
theorem C2_size_bound (env : Env) (run : Run) (slow_factor : Nat) (c : Cursor)
    (hmax1 : 1 ≤ run.global.mutate.maxInputSz)
    (hsz : run.dynfile.size ≤ run.global.mutate.maxInputSz) :
    (mangle_mangleContent env run slow_factor c).1.dynfile.size
      ≤ run.global.mutate.maxInputSz ∧
    (∀ f ∈ mangleFuncs, ∀ (env2 : Env) (run2 : Run) (p : Bool) (c2 : Cursor),
      run2.dynfile.size ≤ run2.global.mutate.maxInputSz →
      (f env2 run2 p c2).1.dynfile.size ≤ run2.global.mutate.maxInputSz) :=
  ⟨(mangleContent_inv env run slow_factor c hmax1 hsz).1,
   fun f hf env2 run2 p c2 h => ((mangleFuncs_pres f hf) env2 run2 p c2).2.1 h⟩

theorem C2_size_bound_witness :
    1 ≤ runW.global.mutate.maxInputSz ∧
    runW.dynfile.size ≤ runW.global.mutate.maxInputSz ∧
    (mangle_mangleContent envW runW 0 c0).1.dynfile.size
      ≤ runW.global.mutate.maxInputSz :=
  ⟨by decide, by decide, (C2_size_bound envW runW 0 c0 (by decide) (by decide)).1⟩

/-- C6: for every `max` with `1 ≤ max ≤ _HF_INPUT_MAX_SIZE`, `mangle_getLen`
returns a value in `[1, max]` — so the internal fatal branches checking
`ret < 1` and `ret > max` are unreachable — and `getLen 1 = 1` without
consuming a random draw. -/
theorem C6_getLen_range (env : Env) (mx : Nat) (c : Cursor)
    (h1 : 1 ≤ mx) (h2 : mx ≤ HF_INPUT_MAX_SIZE) :
    1 ≤ (mangle_getLen env mx c).1 ∧ (mangle_getLen env mx c).1 ≤ mx ∧
    mangle_getLen env 1 c = (1, c) :=
  ⟨mangle_getLen_ge env mx c h1 h2, mangle_getLen_le env mx c, rfl⟩

theorem C6_getLen_range_witness :
    1 ≤ 5 ∧ 5 ≤ HF_INPUT_MAX_SIZE ∧
    (1 ≤ (mangle_getLen envW 5 c0).1 ∧ (mangle_getLen envW 5 c0).1 ≤ 5 ∧
      mangle_getLen envW 1 c0 = (1, c0)) :=
  ⟨by decide, by decide, C6_getLen_range envW 5 c0 (by decide) (by decide)⟩

/-- C7: when the per-run mutation count is zero, `mangle_mangleContent` returns
immediately and the whole run state (buffer bytes, size and cursor) is
unchanged. -/
theorem C7_disabled_mutation (env : Env) (run : Run) (slow_factor : Nat)
    (c : Cursor) (h : run.mutationsPerRun = 0) :
    mangle_mangleContent env run slow_factor c = (run, c) := by
  unfold mangle_mangleContent
  rw [if_pos h]

theorem C7_disabled_mutation_witness :
    runW0.mutationsPerRun = 0 ∧
    mangle_mangleContent envW runW0 0 c0 = (runW0, c0) :=
  ⟨rfl, C7_disabled_mutation envW runW0 0 c0 rfl⟩

/-- C8: when the buffer is empty on entry and the per-run mutation count is
positive, the dispatcher bootstraps with `mangle_Resize` and the final size is
at least 1; `mangle_Resize` itself always clamps its new size to at least 1
(given the configuration's `maxInputSz ≥ 1`). -/
theorem C8_empty_bootstrap (env : Env) (run : Run) (slow_factor : Nat) (c : Cursor)
    (hmax1 : 1 ≤ run.global.mutate.maxInputSz)
    (h0 : run.dynfile.size = 0)
    (hm : run.mutationsPerRun ≠ 0) :
    1 ≤ (mangle_mangleContent env run slow_factor c).1.dynfile.size ∧
    (∀ (env2 : Env) (run2 : Run) (p : Bool) (c2 : Cursor),
      1 ≤ run2.global.mutate.maxInputSz →
      1 ≤ (mangle_Resize env2 run2 p c2).1.dynfile.size) :=
  ⟨(mangleContent_inv env run slow_factor c hmax1 (by omega)).2 (Or.inr hm),
   fun env2 run2 p c2 h => (mangle_Resize_bounds env2 run2 p c2).2.2 h⟩

theorem C8_empty_bootstrap_witness :
    1 ≤ runE.global.mutate.maxInputSz ∧ runE.dynfile.size = 0 ∧
    runE.mutationsPerRun ≠ 0 ∧
    1 ≤ (mangle_mangleContent envW runE 0 c0).1.dynfile.size :=
  ⟨by decide, by decide, by decide,
   (C8_empty_bootstrap envW runE 0 c0 (by decide) (by decide) (by decide)).1⟩

/-- C9: when the user dictionary is empty (`dictionaryCnt = 0`),
`mangle_DictionaryInsert` is exactly `mangle_BytesInsert` and
`mangle_DictionaryOverwrite` is exactly `mangle_BytesOverwrite`, on the same
PRNG state; neither aborts. -/
theorem C9_dictionary_fallthrough (env : Env) (run : Run) (p : Bool) (c : Cursor)
    (h : run.global.mutate.dictionaryCnt = 0) :
    mangle_DictionaryInsert env run p c = mangle_BytesInsert env run p c ∧
    mangle_DictionaryOverwrite env run p c = mangle_BytesOverwrite env run p c := by
  constructor
  · simp only [mangle_DictionaryInsert]
    rw [if_pos h]
  · simp only [mangle_DictionaryOverwrite]
    rw [if_pos h]

theorem C9_dictionary_fallthrough_witness :
    runW.global.mutate.dictionaryCnt = 0 ∧
    (mangle_DictionaryInsert envW runW false c0 = mangle_BytesInsert envW runW false c0 ∧
     mangle_DictionaryOverwrite envW runW false c0
       = mangle_BytesOverwrite envW runW false c0) :=
  ⟨by decide, C9_dictionary_fallthrough envW runW false c0 (by decide)⟩

/-- C10: every operator of the dispatch table maps a buffer with
`1 ≤ size ≤ maxInputSz` to one with `size ≥ 1`; `mangle_Resize` always leaves
`size ≥ 1` (its clamp, given `maxInputSz ≥ 1`); and `mangle_Shrink` is a no-op
whenever `size ≤ 2`. No operation ever empties the buffer. -/
theorem C10_nonempty_preservation :
    (∀ f ∈ mangleFuncs, ∀ (env : Env) (run : Run) (p : Bool) (c : Cursor),
      1 ≤ run.dynfile.size → run.dynfile.size ≤ run.global.mutate.maxInputSz →
      1 ≤ (f env run p c).1.dynfile.size) ∧
    (∀ (env : Env) (run : Run) (p : Bool) (c : Cursor),
      1 ≤ run.global.mutate.maxInputSz →
      1 ≤ (mangle_Resize env run p c).1.dynfile.size) ∧
    (∀ (env : Env) (run : Run) (p : Bool) (c : Cursor),
      run.dynfile.size ≤ 2 → mangle_Shrink env run p c = (run, c)) := by
  refine ⟨?_, ?_, ?_⟩
  · intro f hf env run p c h1 _h2
    exact ((mangleFuncs_pres f hf) env run p c).2.2 h1
  · intro env run p c h
    exact (mangle_Resize_bounds env run p c).2.2 h
  · intro env run p c h
    simp only [mangle_Shrink]
    rw [if_pos h]

theorem C10_nonempty_preservation_witness :
    1 ≤ (mangle_Shrink envW runW false c0).1.dynfile.size ∧
    1 ≤ (mangle_Resize envW runW false c0).1.dynfile.size ∧
    mangle_Shrink envW runW false c0 = (runW, c0) :=
  ⟨C10_nonempty_preservation.1 mangle_Shrink (List.mem_cons_self _ _) envW runW false c0
      (by decide) (by decide),
   C10_nonempty_preservation.2.1 envW runW false c0 (by decide),
   C10_nonempty_preservation.2.2 envW runW false c0 (by decide)⟩

/-- C3 (counterexample): `mangle_Overwrite` is not a no-op for `off > size`:
the clamp `size - off` is a `size_t` subtraction that wraps, so the call writes
`len` bytes at `off`, outside `[0, size)`. With `size = 2` and `off = 3`, the
byte at index 3 changes from 68 to 66. -/
theorem C3_overwrite_counterexample :
    3 ≥ runW.dynfile.size ∧
    (mangle_Overwrite runW 3 (Src.ext [66]) 1 false).dynfile.data.getD 3 0 = 66 ∧
    runW.dynfile.data.getD 3 0 = 68 ∧
    (mangle_Overwrite runW 3 (Src.ext [66]) 1 false).dynfile.data
      ≠ runW.dynfile.data := by
  decide

/-- C3 (amended): for every `off ≤ size`, `mangle_Overwrite` copies exactly
`min(len, size - off)` bytes from `src` to `data + off` (remapped into
`[0x20, 0x7E]` when `printable`), leaves `size` and the global state unchanged,
and is a no-op when `len = 0` or `off = size`. (For `off > size` the `size_t`
clamp wraps and the primitive writes out of the logical bounds, as the
counterexample shows.) -/
theorem C3_overwrite_semantics (run : Run) (off : Nat) (src : Src) (len : Nat)
    (p : Bool) (hU : run.dynfile.size < U64) (hoff : off ≤ run.dynfile.size) :
    (mangle_Overwrite run off src len p).dynfile.size = run.dynfile.size ∧
    (mangle_Overwrite run off src len p).global = run.global ∧
    (mangle_Overwrite run off src len p).dynfile.data
      = writeBytes run.dynfile.data off
          (if p then ((readSrc run src).take (min len (run.dynfile.size - off))).map
              util_turnToPrintable1
           else (readSrc run src).take (min len (run.dynfile.size - off))) ∧
    (len = 0 ∨ off = run.dynfile.size → mangle_Overwrite run off src len p = run) := by
  have hsub : subU64 run.dynfile.size off = run.dynfile.size - off := by
    unfold subU64
    rw [show run.dynfile.size + U64 - off = U64 + (run.dynfile.size - off) from by omega,
      Nat.add_mod_left, Nat.mod_eq_of_lt (by omega)]
  refine ⟨mangle_Overwrite_size _ _ _ _ _, mangle_Overwrite_global _ _ _ _ _, ?_, ?_⟩
  · simp only [mangle_Overwrite]
    split
    next h0 =>
      subst h0
      have hmin0 : min 0 (run.dynfile.size - off) = 0 := Nat.zero_min _
      rw [hmin0, List.take_zero, List.map_nil, ite_self, writeBytes_nil]
    next h0 =>
      rw [hsub]
      have hclamp : (if len > run.dynfile.size - off then run.dynfile.size - off else len)
          = min len (run.dynfile.size - off) := by
        split
        next hc => exact (Nat.min_eq_right (Nat.le_of_lt hc)).symm
        next hc => exact (Nat.min_eq_left (Nat.le_of_not_lt hc)).symm
      rw [hclamp]
  · intro h
    rcases h with h | h
    · simp only [mangle_Overwrite]
      rw [if_pos h]
    · simp only [mangle_Overwrite]
      split
      · rfl
      next hlen =>
        rw [hsub, h, Nat.sub_self, if_pos (Nat.pos_of_ne_zero hlen), List.take_zero,
          List.map_nil, ite_self, writeBytes_nil]

theorem C3_overwrite_semantics_witness :
    runW.dynfile.size < U64 ∧ 1 ≤ runW.dynfile.size ∧
    ((mangle_Overwrite runW 1 (Src.ext [66]) 1 false).dynfile.size
        = runW.dynfile.size ∧
      (mangle_Overwrite runW 1 (Src.ext [66]) 1 false).dynfile.data
        = writeBytes runW.dynfile.data 1
            (if false then (((readSrc runW (Src.ext [66])).take
                (min 1 (runW.dynfile.size - 1))).map util_turnToPrintable1)
             else (readSrc runW (Src.ext [66])).take (min 1 (runW.dynfile.size - 1)))) :=
  ⟨by decide, by decide,
   (C3_overwrite_semantics runW 1 (Src.ext [66]) 1 false (by decide) (by decide)).1,
   (C3_overwrite_semantics runW 1 (Src.ext [66]) 1 false (by decide) (by decide)).2.2.1⟩

/-- C4: `mangle_Move` coincides with the specification's read-then-write
semantics, including the clamp of `len` to `min(size - from, size - to, len)`
and the no-op cases. -/
theorem C4_move_refines_spec (run : Run) (off_from off_to len : Nat) :
    mangle_Move run off_from off_to len = moveSpec run off_from off_to len := by
  rw [mangle_Move, moveSpec]
  by_cases h1 : off_from ≥ run.dynfile.size
  · rw [if_pos h1, if_pos (Or.inl h1)]
  by_cases h2 : off_to ≥ run.dynfile.size
  · rw [if_neg h1, if_pos h2, if_pos (Or.inr h2)]
  · have hmin : min (min len (run.dynfile.size - off_from)) (run.dynfile.size - off_to)
        = min (min (run.dynfile.size - off_from) (run.dynfile.size - off_to)) len := by
      rw [Nat.min_comm len (run.dynfile.size - off_from), Nat.min_assoc,
        Nat.min_comm len (run.dynfile.size - off_to), ← Nat.min_assoc]
    rw [if_neg h1, if_neg h2, if_neg (not_or.mpr ⟨h1, h2⟩)]
    dsimp only
    rw [hmin]

/-- `mangle_Move r off (off + a) n` for `n ≥ size` shifts the block that starts
at `off` rightward by `a`: it writes the `size - off - a` bytes read at `off`
to `off + a`. -/
theorem mangle_Move_shift (r : Run) (off a n : Nat) (h1 : off < r.dynfile.size)
    (h2 : off + a < r.dynfile.size) (hn : r.dynfile.size ≤ n) :
    mangle_Move r off (off + a) n
      = { r with dynfile := { r.dynfile with
          data := writeBytes r.dynfile.data (off + a)
            ((r.dynfile.data.drop off).take (r.dynfile.size - off - a)) } } := by
  simp only [mangle_Move, if_neg (Nat.not_le.mpr h1 : ¬off ≥ r.dynfile.size),
    if_neg (Nat.not_le.mpr h2 : ¬off + a ≥ r.dynfile.size)]
  have e1 : min n (r.dynfile.size - off) = r.dynfile.size - off :=
    Nat.min_eq_right (le_trans (Nat.sub_le _ _) hn)
  have e2 : min (r.dynfile.size - off) (r.dynfile.size - (off + a))
      = r.dynfile.size - (off + a) :=
    Nat.min_eq_right (Nat.sub_le_sub_left (Nat.le_add_right off a) _)
  have e3 : r.dynfile.size - (off + a) = r.dynfile.size - off - a :=
    (Nat.sub_sub _ _ _).symm
  rw [e1, e2, e3]

/-- C5: for every `off < size`, `mangle_Inflate` returns exactly
`actual = min(len, maxInputSz - size)`, grows `size` by `actual`, moves the
bytes that were at `[off, old_size)` rightward by `actual`, and at the cap
(`size = maxInputSz`) returns 0 with the buffer unchanged. -/
theorem C5_inflate_semantics (run : Run) (off len : Nat) (p : Bool)
    (hoff : off < run.dynfile.size)
    (hsz : run.dynfile.size ≤ run.global.mutate.maxInputSz)
    (hcap : run.global.mutate.maxInputSz ≤ run.dynfile.data.length) :
    (mangle_Inflate run off len p).2
      = min len (run.global.mutate.maxInputSz - run.dynfile.size) ∧
    (mangle_Inflate run off len p).1.dynfile.size
      = run.dynfile.size + (mangle_Inflate run off len p).2 ∧
    ((mangle_Inflate run off len p).1.dynfile.data.drop
        (off + (mangle_Inflate run off len p).2)).take (run.dynfile.size - off)
      = (run.dynfile.data.drop off).take (run.dynfile.size - off) ∧
    (run.dynfile.size = run.global.mutate.maxInputSz →
      mangle_Inflate run off len p = (run, 0)) := by
  by_cases hfull : run.dynfile.size ≥ run.global.mutate.maxInputSz
  · have h0 : run.global.mutate.maxInputSz - run.dynfile.size = 0 :=
      Nat.sub_eq_zero_of_le hfull
    rw [mangle_Inflate_eq, if_pos hfull]
    exact ⟨by rw [h0, Nat.min_zero], (Nat.add_zero _).symm, by simp, fun _ => rfl⟩
  · rw [mangle_Inflate_eq, if_neg hfull]
    have hclamp : (if len > run.global.mutate.maxInputSz - run.dynfile.size
        then run.global.mutate.maxInputSz - run.dynfile.size else len)
        = min len (run.global.mutate.maxInputSz - run.dynfile.size) := by
      split
      next hc => exact (Nat.min_eq_right (Nat.le_of_lt hc)).symm
      next hc => exact (Nat.min_eq_left (Nat.le_of_not_lt hc)).symm
    rw [hclamp]
    clear hclamp
    generalize hb : min len (run.global.mutate.maxInputSz - run.dynfile.size) = b
    have haM : b ≤ run.global.mutate.maxInputSz - run.dynfile.size :=
      hb ▸ min_le_right len _
    clear hb
    show
      let r1 := input_setSize run (run.dynfile.size + b)
      let r2 := mangle_Move r1 off (off + b) r1.dynfile.size
      let r3 := if p then
          { r2 with dynfile := { r2.dynfile with
              data := writeBytes r2.dynfile.data off (List.replicate b 32) } }
        else r2
      ((r3, b).2 = b ∧
       (r3, b).1.dynfile.size = run.dynfile.size + (r3, b).2 ∧
       ((r3, b).1.dynfile.data.drop (off + (r3, b).2)).take (run.dynfile.size - off)
         = (run.dynfile.data.drop off).take (run.dynfile.size - off) ∧
       (run.dynfile.size = run.global.mutate.maxInputSz → (r3, b) = (run, 0)))
    intro r1 r2 r3
    have hm0 : run.dynfile.size + (run.global.mutate.maxInputSz - run.dynfile.size)
        = run.global.mutate.maxInputSz := Nat.add_sub_cancel' hsz
    have hoblt : off < run.dynfile.size + b :=
      Nat.lt_of_lt_of_le hoff (Nat.le_add_right _ _)
    have hoblt2 : off + b < run.dynfile.size + b := Nat.add_lt_add_right hoff b
    have hobL : off + b ≤ run.dynfile.data.length :=
      le_trans (le_of_lt (hm0 ▸ Nat.add_lt_add_of_lt_of_le hoff haM)) hcap
    have hsliceL : off + b + (run.dynfile.size - off) ≤ run.dynfile.data.length := by
      rw [Nat.add_right_comm, Nat.add_sub_cancel' (le_of_lt hoff)]
      exact le_trans (hm0 ▸ Nat.add_le_add_left haM run.dynfile.size) hcap
    have harith : run.dynfile.size + b - off - b = run.dynfile.size - off := by
      rw [Nat.sub_sub, Nat.add_sub_add_right]
    have harith2 : run.dynfile.size - off ≤ run.dynfile.data.length - off :=
      Nat.sub_le_sub_right (le_trans hsz hcap) off
    have hr1size : r1.dynfile.size = run.dynfile.size + b := rfl
    have hr1data : r1.dynfile.data = run.dynfile.data := rfl
    have hr2 : r2 = { r1 with dynfile := { r1.dynfile with
        data := writeBytes r1.dynfile.data (off + b)
          ((r1.dynfile.data.drop off).take (r1.dynfile.size - off - b)) } } := by
      show mangle_Move r1 off (off + b) r1.dynfile.size = _
      exact mangle_Move_shift r1 off b r1.dynfile.size (by rw [hr1size]; exact hoblt)
        (by rw [hr1size]; exact hoblt2) le_rfl
    have hr2size : r2.dynfile.size = run.dynfile.size + b := by
      rw [hr2, setData_size, hr1size]
    have hr2data : r2.dynfile.data = writeBytes run.dynfile.data (off + b)
        ((run.dynfile.data.drop off).take (run.dynfile.size - off)) := by
      rw [hr2]
      show writeBytes r1.dynfile.data (off + b)
          ((r1.dynfile.data.drop off).take (r1.dynfile.size - off - b)) = _
      rw [hr1data, hr1size, harith]
    have hr3size : r3.dynfile.size = r2.dynfile.size := by
      show (if p then { r2 with dynfile := { r2.dynfile with
          data := writeBytes r2.dynfile.data off (List.replicate b 32) } }
        else r2).dynfile.size = _
      split
      · rw [setData_size]
      · rfl
    have hslice : ((run.dynfile.data.drop off).take (run.dynfile.size - off)).length
        = run.dynfile.size - off := by
      rw [List.length_take, List.length_drop]
      exact Nat.min_eq_left harith2
    have hread := writeBytes_read run.dynfile.data
      ((run.dynfile.data.drop off).take (run.dynfile.size - off)) (off + b)
      (by rw [hslice]; exact hsliceL)
    rw [hslice] at hread
    have hr3drop : r3.dynfile.data.drop (off + b) = r2.dynfile.data.drop (off + b) := by
      show (if p then { r2 with dynfile := { r2.dynfile with
          data := writeBytes r2.dynfile.data off (List.replicate b 32) } }
        else r2).dynfile.data.drop (off + b) = _
      split
      · show (writeBytes r2.dynfile.data off (List.replicate b 32)).drop (off + b) = _
        have hd := writeBytes_drop r2.dynfile.data (List.replicate b 32) off
          (by rw [List.length_replicate, hr2data, length_writeBytes]; exact hobL)
        rw [List.length_replicate] at hd
        exact hd
      · rfl
    refine ⟨rfl, ?_, ?_, fun hcap2 => absurd (le_of_eq hcap2.symm) hfull⟩
    · show r3.dynfile.size = run.dynfile.size + b
      rw [hr3size, hr2size]
    · show (r3.dynfile.data.drop (off + b)).take (run.dynfile.size - off)
          = (run.dynfile.data.drop off).take (run.dynfile.size - off)
      rw [hr3drop, hr2data]
      exact hread

theorem C5_inflate_semantics_witness :
    0 < runW.dynfile.size ∧
    runW.dynfile.size ≤ runW.global.mutate.maxInputSz ∧
    runW.global.mutate.maxInputSz ≤ runW.dynfile.data.length ∧
    ((mangle_Inflate runW 0 10 false).2
        = min 10 (runW.global.mutate.maxInputSz - runW.dynfile.size) ∧
      (mangle_Inflate runW 0 10 false).1.dynfile.size
        = runW.dynfile.size + (mangle_Inflate runW 0 10 false).2) :=
  ⟨by decide, by decide, by decide,
   (C5_inflate_semantics runW 0 10 false (by decide) (by decide) (by decide)).1,
   (C5_inflate_semantics runW 0 10 false (by decide) (by decide) (by decide)).2.1⟩

end Honggfuzz
